import Mathlib

/-!
Verification of the CHIP-8 emulator core (files mem.rs and systems.rs).

The Rust sources are embedded shallowly: u8/u16/usize arithmetic is modelled
on Nat with explicit wrap-around (release-mode semantics: overflowing
subtraction and addition wrap), fallible operations return Except, and the
opcode-fetch panic as well as the unreachable branches of the source are
modelled by a dedicated outcome constructor.  RAM is a list of byte values;
the display buffer is the 256-byte region starting at 0xF00, exactly as in
the source.
-/

set_option maxRecDepth 100000

/-- Error values surfaced by the core, mirroring errors.rs plus the bare
anyhow messages used for the return-underflow and the malformed 0x0 operand. -/
inductive ExecError where
  | invalidAccess
  | invalidInstruction
  | anyhowMsg
deriving DecidableEq, Repr

/-- Wrapping u8 subtraction (release-mode semantics), valid for a < 256 and
b ≤ 256; truncation to 8 bits is the bit mask, as on the hardware. -/
def sub8 (a b : Nat) : Nat := (a + 256 - b) &&& 255

/-- Wrapping u16 subtraction (release-mode semantics), valid for a < 65536
and b ≤ 65536. -/
def sub16 (a b : Nat) : Nat := (a + 65536 - b) &&& 65535

/-- The 4096-byte RAM of mem.rs (struct Chip8Mem). -/
structure Chip8Mem where
  ram : List Nat
deriving DecidableEq, Repr

/-- Helper for Chip8Mem.set: rebuilds the RAM list, replacing the bytes of
the written range, mirroring the iter().enumerate().map() in the source.
The second Nat argument is the index of the head of the remaining list. -/
def setRam (addr : Nat) (content : List Nat) : List Nat → Nat → List Nat
  | [], _ => []
  | b :: rest, i =>
      (if addr ≤ i ∧ i < addr + content.length then content.getD (i - addr) 0 else b)
        :: setRam addr content rest (i + 1)

/-- Bounds-checked read, mirroring Chip8Mem::get: the slice
ram[addr .. addr+len] exists exactly when addr + len ≤ ram.len(). -/
def Chip8Mem.get (m : Chip8Mem) (addr len : Nat) : Except ExecError (List Nat) :=
  if addr + len ≤ m.ram.length then .ok ((m.ram.drop addr).take len)
  else .error .invalidAccess

/-- Bounds-checked write, mirroring Chip8Mem::set.  The guard computes
addr + content.len() - 1 in usize arithmetic; for addr + len = 0 that
subtraction wraps around to 2^64 - 1 > 0xFFF (release-mode semantics; a
debug build panics), so that case is spelled out as a separate disjunct
here and the subtraction below is the ordinary one. -/
def Chip8Mem.set (m : Chip8Mem) (addr : Nat) (content : List Nat) :
    Except ExecError Chip8Mem :=
  if addr + content.length = 0 ∨ addr + content.length - 1 > 0xFFF then
    .error .invalidAccess
  else .ok ⟨setRam addr content m.ram 0⟩

/-- Single-byte write, mirroring Chip8Mem::set_byte. -/
def Chip8Mem.set_byte (m : Chip8Mem) (addr : Nat) (content : Nat) :
    Except ExecError Chip8Mem :=
  if addr > 0xFFF then .error .invalidAccess
  else .ok ⟨m.ram.set addr content⟩

/-- Model of u8::checked_shr followed by unwrap_or(0). -/
def checkedShr8 (v s : Nat) : Nat := if s < 8 then v >>> s else 0

/-- Model of u8::checked_shl followed by unwrap_or(0); a legal shift
truncates to 8 bits. -/
def checkedShl8 (v s : Nat) : Nat := if s < 8 then (v <<< s) &&& 255 else 0

/-- The filter predicate of load_sprite, selecting the framebuffer indices
that the blit touches.  Note that the source computes (y + n) in u8
arithmetic before casting to usize, hence the % 256. -/
def inBlit (x y n i : Nat) : Bool :=
  decide (x / 8 ≤ i % (64 / 8)) && decide (i % (64 / 8) ≤ x / 8 + 1) &&
    decide (y ≤ i / (64 / 8)) && decide (i / (64 / 8) < (y + n) % 256)

/-- The per-byte update of load_sprite: j is the running index over the
touched bytes.  The returned Bool is the flag contribution, computed from
the already-updated byte exactly as in the source (*b ^= s; flag |= *b ^ s > 0). -/
def blitByte (spr : List Nat) (x j b : Nat) : Nat × Bool :=
  if x / 8 = 7 then
    let sb := checkedShr8 (spr.getD j 0) (x % 8)
    (b ^^^ sb, decide (0 < (b ^^^ sb) ^^^ sb))
  else if j % 2 = 0 then
    let sb := checkedShr8 (spr.getD (j / 2) 0) (x % 8)
    (b ^^^ sb, decide (0 < (b ^^^ sb) ^^^ sb))
  else
    let sb := checkedShl8 (spr.getD (j / 2) 0) (8 - x % 8)
    (b ^^^ sb, decide (0 < (b ^^^ sb) ^^^ sb))

/-- The iterator chain of load_sprite: walks the framebuffer with absolute
index i, keeps a second counter j over the touched bytes (the inner
enumerate()), updates each touched byte and accumulates the flag. -/
def blitGo (spr : List Nat) (x y n : Nat) : List Nat → Nat → Nat → Bool → List Nat × Bool
  | [], _, _, flag => ([], flag)
  | b :: rest, i, j, flag =>
      if inBlit x y n i then
        let p := blitByte spr x j b
        let q := blitGo spr x y n rest (i + 1) (j + 1) (flag || p.2)
        (p.1 :: q.1, q.2)
      else
        let q := blitGo spr x y n rest (i + 1) j flag
        (b :: q.1, q.2)

/-- Sprite blit, mirroring Chip8Mem::load_sprite.  The anchor is capped by
(x_uncapped & 64) - 1 and (y_uncapped & 32) - 1 in u8 arithmetic exactly as
written in the source (CHIP8_DISP_WIDTH = 64, CHIP8_DISP_HEIGHT = 32); the
initial framebuffer read is unwrapped in the source and cannot fail on a
4096-byte RAM, so the unreachable failure case yields the empty list here. -/
def Chip8Mem.load_sprite (m : Chip8Mem) (spr : List Nat) (xU yU n : Nat) :
    Except ExecError (Chip8Mem × Bool) :=
  let x := sub8 (xU &&& 64) 1
  let y := sub8 (yU &&& 32) 1
  let fb := match m.get 0xF00 0x100 with | .ok l => l | .error _ => []
  let bres := blitGo spr x y n fb 0 0 false
  match m.set 0xF00 bres.1 with
  | .error e => .error e
  | .ok m2 => .ok (m2, bres.2)

/-- All-zero 4096-byte RAM. -/
def mem0 : Chip8Mem := ⟨List.replicate 4096 0⟩

/-- RAM that is zero except for a single byte. -/
def memByte (a b : Nat) : Chip8Mem := ⟨(List.replicate 4096 0).set a b⟩

/-! ### Arithmetic and list toolkit -/

theorem and15 (m : Nat) : m &&& 15 = m % 16 := by
  simpa using Nat.and_pow_two_sub_one_eq_mod m 4

theorem and4095 (m : Nat) : m &&& 4095 = m % 4096 := by
  simpa using Nat.and_pow_two_sub_one_eq_mod m 12

theorem shr4 (m : Nat) : m >>> 4 = m / 16 := by
  simpa using Nat.shiftRight_eq_div_pow m 4

theorem shr7 (m : Nat) : m >>> 7 = m / 128 := by
  simpa using Nat.shiftRight_eq_div_pow m 7

theorem shr8 (m : Nat) : m >>> 8 = m / 256 := by
  simpa using Nat.shiftRight_eq_div_pow m 8

theorem shl4 (m : Nat) : m <<< 4 = m * 16 := by
  simpa using Nat.shiftLeft_eq m 4

theorem shl8 (m : Nat) : m <<< 8 = m * 256 := by
  simpa using Nat.shiftLeft_eq m 8

theorem getD_lt {l : List Nat} {k : Nat} (h : k < l.length) : l.getD k 0 = l[k] :=
  List.getD_eq_getElem _ _ h

theorem getD_ge {l : List Nat} {k : Nat} (h : l.length ≤ k) : l.getD k 0 = 0 :=
  List.getD_eq_default _ _ h

theorem list_eq_of_getD {l1 l2 : List Nat} (hl : l1.length = l2.length)
    (h : ∀ k, l1.getD k 0 = l2.getD k 0) : l1 = l2 := by
  apply List.ext_getElem hl
  intro i h1 h2
  have hk := h i
  rwa [getD_lt h1, getD_lt h2] at hk

theorem getD_app (l1 l2 : List Nat) (k : Nat) :
    (l1 ++ l2).getD k 0 = if k < l1.length then l1.getD k 0 else l2.getD (k - l1.length) 0 := by
  split_ifs with h
  · exact List.getD_append l1 l2 0 k h
  · exact List.getD_append_right l1 l2 0 k (by omega)

theorem getD_repl (m a k : Nat) : (List.replicate m a).getD k 0 = if k < m then a else 0 := by
  split_ifs with h
  · rw [getD_lt (by simpa using h)]
    exact List.getElem_replicate ..
  · exact getD_ge (by simpa using h)

theorem getD_take (l : List Nat) (m k : Nat) :
    (l.take m).getD k 0 = if k < m then l.getD k 0 else 0 := by
  split_ifs with h
  · by_cases hk : k < l.length
    · rw [getD_lt (l := l.take m) (by simp; omega), getD_lt hk]
      exact List.getElem_take ..
    · rw [getD_ge (by simp; omega), getD_ge (by omega)]
  · exact getD_ge (by simp; omega)

theorem getD_drop (l : List Nat) (m k : Nat) : (l.drop m).getD k 0 = l.getD (m + k) 0 := by
  by_cases h : m + k < l.length
  · rw [getD_lt (l := l.drop m) (by simp; omega), getD_lt h]
    exact List.getElem_drop ..
  · rw [getD_ge (by simp; omega), getD_ge (by omega)]

theorem getD_set (l : List Nat) (a b k : Nat) :
    (l.set a b).getD k 0 = if a = k ∧ k < l.length then b else l.getD k 0 := by
  split_ifs with h
  · rw [getD_lt (by simp; omega)]
    obtain ⟨rfl, hk⟩ := h
    simp
  · by_cases hk : k < l.length
    · rw [getD_lt (by simpa using hk), getD_lt hk]
      rw [List.getElem_set, if_neg]
      intro he
      exact h ⟨he, hk⟩
    · rw [getD_ge (by simpa using hk), getD_ge (by omega)]

theorem drop_app {l1 l2 : List Nat} {m : Nat} (h : m ≤ l1.length) :
    (l1 ++ l2).drop m = l1.drop m ++ l2 := by
  induction l1 generalizing m with
  | nil => simp_all
  | cons b rest ih =>
      cases m with
      | zero => simp
      | succ m => simpa using ih (by simpa using h)

theorem drop_app_ge {l1 l2 : List Nat} {m : Nat} (h : l1.length ≤ m) :
    (l1 ++ l2).drop m = l2.drop (m - l1.length) := by
  induction l1 generalizing m with
  | nil => simp
  | cons b rest ih =>
      cases m with
      | zero => simp at h
      | succ m => simpa using ih (by simpa using h)

theorem take_app {l1 l2 : List Nat} {m : Nat} (h : m ≤ l1.length) :
    (l1 ++ l2).take m = l1.take m := by
  induction l1 generalizing m with
  | nil => simp_all
  | cons b rest ih =>
      cases m with
      | zero => simp
      | succ m => simpa using ih (by simpa using h)

theorem take_app_ge {l1 l2 : List Nat} {m : Nat} (h : l1.length ≤ m) :
    (l1 ++ l2).take m = l1 ++ l2.take (m - l1.length) := by
  induction l1 generalizing m with
  | nil => simp
  | cons b rest ih =>
      cases m with
      | zero => simp at h
      | succ m => simpa using ih (by simpa using h)

/-! ### setRam and memory operation lemmas -/

theorem setRam_length (a : Nat) (c : List Nat) :
    ∀ (l : List Nat) (i : Nat), (setRam a c l i).length = l.length := by
  intro l
  induction l with
  | nil => intro i; rfl
  | cons b rest ih => intro i; simp [setRam, ih]

theorem setRam_getD (a : Nat) (c : List Nat) :
    ∀ (l : List Nat) (i k : Nat),
      (setRam a c l i).getD k 0 =
        if a ≤ i + k ∧ i + k < a + c.length ∧ k < l.length then c.getD (i + k - a) 0
        else l.getD k 0 := by
  intro l
  induction l with
  | nil =>
      intro i k
      simp [setRam]
  | cons b rest ih =>
      intro i k
      cases k with
      | zero =>
          simp only [setRam, List.getD_cons_zero, List.length_cons, Nat.add_zero]
          split_ifs <;> first | rfl | omega
      | succ k =>
          simp only [setRam, List.getD_cons_succ, List.length_cons, ih (i + 1) k]
          have e1 : i + 1 + k = i + (k + 1) := by omega
          rw [e1]
          split_ifs <;> first | rfl | omega

theorem setRam_eq (a : Nat) (c l : List Nat) (h : a + c.length ≤ l.length) :
    setRam a c l 0 = l.take a ++ c ++ l.drop (a + c.length) := by
  apply list_eq_of_getD
  · simp [setRam_length]
    omega
  · intro k
    rw [setRam_getD]
    simp only [Nat.zero_add]
    rw [getD_app, getD_app, getD_take, getD_drop]
    simp only [List.length_append, List.length_take]
    split_ifs <;> first | rfl | omega | (congr 1; omega)

theorem setRam_slice_id (l : List Nat) (a len : Nat) (h : a ≤ l.length) :
    setRam a ((l.drop a).take len) l 0 = l := by
  apply list_eq_of_getD
  · simp [setRam_length]
  · intro k
    rw [setRam_getD]
    simp only [Nat.zero_add]
    split_ifs with hc
    · rw [getD_take, getD_drop]
      have h2 : k - a < len := by
        have := hc.2.1
        simp only [List.length_take, List.length_drop] at this
        omega
      rw [if_pos h2]
      congr 1
      omega
    · rfl

theorem get_ok {m : Chip8Mem} {a len : Nat} (h : a + len ≤ m.ram.length) :
    m.get a len = .ok ((m.ram.drop a).take len) := by
  simp [Chip8Mem.get, h]

theorem get_err {m : Chip8Mem} {a len : Nat} (h : m.ram.length < a + len) :
    m.get a len = .error .invalidAccess := by
  rw [Chip8Mem.get, if_neg (by omega)]

theorem get_two {m : Chip8Mem} {a : Nat} (h : a + 2 ≤ m.ram.length) :
    m.get a 2 = .ok [m.ram.getD a 0, m.ram.getD (a + 1) 0] := by
  rw [get_ok h]
  have h1 : a < m.ram.length := by omega
  have h2 : a + 1 < m.ram.length := by omega
  rw [List.drop_eq_getElem_cons h1, List.drop_eq_getElem_cons h2]
  rw [getD_lt h1, getD_lt h2]
  rfl

theorem and255 (m : Nat) : m &&& 255 = m % 256 := by
  simpa using Nat.and_pow_two_sub_one_eq_mod m 8

theorem and65535 (m : Nat) : m &&& 65535 = m % 65536 := by
  simpa using Nat.and_pow_two_sub_one_eq_mod m 16

theorem sub8_def (a b : Nat) : sub8 a b = (a + 256 - b) % 256 := by
  rw [sub8, and255]

theorem sub16_def (a b : Nat) : sub16 a b = (a + 65536 - b) % 65536 := by
  rw [sub16, and65535]

theorem set_ok {m : Chip8Mem} {a : Nat} {c : List Nat} (hc : 1 ≤ c.length)
    (h : a + c.length ≤ 4096) : m.set a c = .ok ⟨setRam a c m.ram 0⟩ := by
  rw [Chip8Mem.set, if_neg]
  omega

theorem set_err {m : Chip8Mem} {a : Nat} {c : List Nat}
    (h : a + c.length = 0 ∨ a + c.length - 1 > 0xFFF) :
    m.set a c = .error .invalidAccess := by
  rw [Chip8Mem.set, if_pos h]

theorem set_app {m : Chip8Mem} {a : Nat} {c : List Nat} (hc : 1 ≤ c.length)
    (h : a + c.length ≤ 4096) (hm : a + c.length ≤ m.ram.length) :
    m.set a c = .ok ⟨m.ram.take a ++ c ++ m.ram.drop (a + c.length)⟩ := by
  rw [set_ok hc h, setRam_eq _ _ _ hm]

/-! ### Blit lemmas -/

theorem blitByte_fst_invol (spr : List Nat) (x j b : Nat) :
    (blitByte spr x j (blitByte spr x j b).1).1 = b := by
  simp only [blitByte]
  split_ifs <;> simp [Nat.xor_cancel_right]

theorem blitByte_snd (spr : List Nat) (x j b : Nat) :
    (blitByte spr x j b).2 = decide (0 < b) := by
  simp only [blitByte]
  split_ifs <;> simp [Nat.xor_cancel_right]

theorem blitGo_length (spr : List Nat) (x y n : Nat) :
    ∀ (fb : List Nat) (i j : Nat) (f : Bool),
      ((blitGo spr x y n fb i j f).1).length = fb.length := by
  intro fb
  induction fb with
  | nil => intro i j f; rfl
  | cons b rest ih =>
      intro i j f
      simp only [blitGo]
      split_ifs <;> simp [ih]

theorem blitGo_roundtrip (spr : List Nat) (x y n : Nat) :
    ∀ (fb : List Nat) (i j : Nat) (f g : Bool),
      (blitGo spr x y n (blitGo spr x y n fb i j f).1 i j g).1 = fb := by
  intro fb
  induction fb with
  | nil => intro i j f g; rfl
  | cons b rest ih =>
      intro i j f g
      by_cases h : inBlit x y n i = true
      · simp only [blitGo, h, if_true, blitByte_fst_invol, ih, List.cons.injEq]
      · have h2 : inBlit x y n i = false := by simpa using h
        simp only [blitGo, h2, Bool.false_eq_true, if_false, ih, List.cons.injEq]

theorem blitGo_untouched (spr : List Nat) (x y n : Nat) :
    ∀ (fb : List Nat) (i j : Nat) (f : Bool) (k : Nat),
      inBlit x y n (i + k) = false →
      ((blitGo spr x y n fb i j f).1).getD k 0 = fb.getD k 0 := by
  intro fb
  induction fb with
  | nil => intro i j f k hk; rfl
  | cons b rest ih =>
      intro i j f k hk
      cases k with
      | zero =>
          have h0 : inBlit x y n i = false := by simpa using hk
          simp only [blitGo, h0, Bool.false_eq_true, if_false, List.getD_cons_zero]
      | succ k =>
          have hk2 : inBlit x y n (i + 1 + k) = false := by
            have e : i + 1 + k = i + (k + 1) := by omega
            rw [e]; exact hk
          by_cases h : inBlit x y n i = true
          · simp only [blitGo, h, if_true, List.getD_cons_succ]
            exact ih (i + 1) (j + 1) _ k hk2
          · have h2 : inBlit x y n i = false := by simpa using h
            simp only [blitGo, h2, Bool.false_eq_true, if_false, List.getD_cons_succ]
            exact ih (i + 1) j f k hk2

theorem blitGo_flagtrue (spr : List Nat) (x y n : Nat) :
    ∀ (fb : List Nat) (i j : Nat), (blitGo spr x y n fb i j true).2 = true := by
  intro fb
  induction fb with
  | nil => intro i j; rfl
  | cons b rest ih =>
      intro i j
      by_cases h : inBlit x y n i = true
      · simp only [blitGo, h, if_true, Bool.true_or]
        exact ih (i + 1) (j + 1)
      · have h2 : inBlit x y n i = false := by simpa using h
        simp only [blitGo, h2, Bool.false_eq_true, if_false]
        exact ih (i + 1) j

theorem blitGo_flag (spr : List Nat) (x y n : Nat) :
    ∀ (fb : List Nat) (i j : Nat) (f : Bool) (k : Nat),
      inBlit x y n (i + k) = true → fb.getD k 0 ≠ 0 →
      (blitGo spr x y n fb i j f).2 = true := by
  intro fb
  induction fb with
  | nil => intro i j f k hk hb; simp [List.getD_nil] at hb
  | cons b rest ih =>
      intro i j f k hk hb
      cases k with
      | zero =>
          have h0 : inBlit x y n i = true := by simpa using hk
          simp only [List.getD_cons_zero] at hb
          simp only [blitGo, h0, if_true, blitByte_snd]
          have hd : decide (0 < b) = true := by simpa using Nat.pos_of_ne_zero hb
          rw [hd, Bool.or_true]
          exact blitGo_flagtrue spr x y n rest (i + 1) (j + 1)
      | succ k =>
          have hk2 : inBlit x y n (i + 1 + k) = true := by
            have e : i + 1 + k = i + (k + 1) := by omega
            rw [e]; exact hk
          simp only [List.getD_cons_succ] at hb
          by_cases h : inBlit x y n i = true
          · simp only [blitGo, h, if_true]
            exact ih (i + 1) (j + 1) _ k hk2 hb
          · have h2 : inBlit x y n i = false := by simpa using h
            simp only [blitGo, h2, Bool.false_eq_true, if_false]
            exact ih (i + 1) j f k hk2 hb

theorem blitGo_none (spr : List Nat) (x y n : Nat)
    (h : ∀ k, inBlit x y n k = false) :
    ∀ (fb : List Nat) (i j : Nat) (f : Bool), blitGo spr x y n fb i j f = (fb, f) := by
  intro fb
  induction fb with
  | nil => intro i j f; rfl
  | cons b rest ih =>
      intro i j f
      simp only [blitGo, h i, Bool.false_eq_true, if_false, ih]

theorem load_sprite_ok {m : Chip8Mem} (spr : List Nat) (xU yU n : Nat)
    (h : m.ram.length = 4096) :
    m.load_sprite spr xU yU n =
      .ok (⟨setRam 0xF00
              (blitGo spr (sub8 (xU &&& 64) 1) (sub8 (yU &&& 32) 1) n
                ((m.ram.drop 0xF00).take 0x100) 0 0 false).1 m.ram 0⟩,
           (blitGo spr (sub8 (xU &&& 64) 1) (sub8 (yU &&& 32) 1) n
                ((m.ram.drop 0xF00).take 0x100) 0 0 false).2) := by
  have hfb : ((m.ram.drop 0xF00).take 0x100).length = 256 := by
    simp [h]
  have hlen : ((blitGo spr (sub8 (xU &&& 64) 1) (sub8 (yU &&& 32) 1) n
      ((m.ram.drop 0xF00).take 0x100) 0 0 false).1).length = 256 := by
    rw [blitGo_length]; exact hfb
  have hget : m.get 0xF00 0x100 = .ok ((m.ram.drop 0xF00).take 0x100) :=
    get_ok (by omega)
  have hset : m.set 0xF00 (blitGo spr (sub8 (xU &&& 64) 1) (sub8 (yU &&& 32) 1) n
      ((m.ram.drop 0xF00).take 0x100) 0 0 false).1 =
      .ok ⟨setRam 0xF00 (blitGo spr (sub8 (xU &&& 64) 1) (sub8 (yU &&& 32) 1) n
        ((m.ram.drop 0xF00).take 0x100) 0 0 false).1 m.ram 0⟩ :=
    set_ok (by omega) (by omega)
  simp only [Chip8Mem.load_sprite, hget, hset]


/-! ### Helpers for concrete replicate-append memories -/

theorem mem0_len : mem0.ram.length = 4096 := by
  show (List.replicate 4096 (0 : Nat)).length = 4096
  rw [List.length_replicate]

theorem lenRA (n a : Nat) (l2 : List Nat) :
    (List.replicate n a ++ l2).length = n + l2.length := by
  rw [List.length_append, List.length_replicate]

theorem take_repl_app {n m a : Nat} {l2 : List Nat} (h : m ≤ n) :
    (List.replicate n a ++ l2).take m = List.replicate m a := by
  rw [take_app (by rw [List.length_replicate]; omega), List.take_replicate]
  congr 1
  omega

theorem drop_repl_app {n m a : Nat} {l2 : List Nat} (h : m ≤ n) :
    (List.replicate n a ++ l2).drop m = List.replicate (n - m) a ++ l2 := by
  rw [drop_app (by rw [List.length_replicate]; omega), List.drop_replicate]

theorem take_len_app {l1 l2 : List Nat} {m : Nat} (h : l1.length + l2.length ≤ m) :
    (l1 ++ l2).take m = l1 ++ l2 :=
  List.take_of_length_le (by rw [List.length_append]; omega)

/-! ### Claims C1 to C3 and C9: the memory subsystem -/

/-- C1, behavior of the code at the claimed input: drawing the 1-byte sprite
0xFF at (0, 0) on an all-zero display leaves the whole buffer unchanged and
returns collision = false, because the anchor cap computes (x & 64) - 1,
which wraps to 255 for x = 0, instead of reducing x modulo 64; the second
and third conjuncts exhibit the cap values directly. -/
theorem C1_draw_at_origin_is_noop :
    mem0.load_sprite [0xFF] 0 0 1 = .ok (mem0, false) ∧
      sub8 (0 &&& 64) 1 = 255 ∧ sub8 (3 &&& 64) 1 ≠ 3 % 64 := by
  refine ⟨?_, by decide, by decide⟩
  rw [@load_sprite_ok mem0 [0xFF] 0 0 1 mem0_len]
  have hnone : ∀ k, inBlit (sub8 (0 &&& 64) 1) (sub8 (0 &&& 32) 1) 1 k = false := by
    intro k
    have hx : sub8 (0 &&& 64) 1 = 255 := by decide
    have h8 : k % (64 / 8) < 8 := Nat.mod_lt _ (by norm_num)
    have hc : ¬(255 / 8 ≤ k % (64 / 8)) := by omega
    rw [hx]
    simp [inBlit, hc]
  simp only [blitGo_none _ _ _ _ hnone]
  rw [setRam_slice_id mem0.ram 0xF00 0x100 (by rw [mem0_len]; norm_num)]

/-- Auxiliary: blitGo walks an all-zero prefix that the filter never selects
without touching it, resuming on the suffix with the absolute index advanced
past the prefix. -/
theorem blitGo_skip (spr : List Nat) (x y n : Nat) :
    ∀ (m : Nat) (l : List Nat) (i j : Nat) (f : Bool),
      (∀ k, k < m → inBlit x y n (i + k) = false) →
      blitGo spr x y n (List.replicate m 0 ++ l) i j f =
        (List.replicate m 0 ++ (blitGo spr x y n l (i + m) j f).1,
          (blitGo spr x y n l (i + m) j f).2) := by
  intro m
  induction m with
  | zero => intro l i j f h; simp
  | succ m ih =>
      intro l i j f h
      have h0 : inBlit x y n i = false := by
        have h2 := h 0 (by omega)
        simpa using h2
      show blitGo spr x y n (0 :: (List.replicate m 0 ++ l)) i j f = _
      simp only [blitGo, h0, Bool.false_eq_true, if_false]
      rw [ih l (i + 1) j f (fun k hk => by
        have h3 := h (k + 1) (by omega)
        rwa [show i + 1 + k = i + (k + 1) from by omega])]
      have e : i + 1 + m = i + (m + 1) := by omega
      rw [e]
      rfl

/-- C2, behavior of the code at a counter-input: blitting the sprite 0x80 at
the capped anchor (63, 31) onto a display whose last byte is 2 turns that
byte into 3 (the XOR only lights a pixel; no bit goes from 1 to 0, as the
second conjunct records) yet the call returns collision = true, because the
flag tests whether the touched byte was nonzero before the XOR rather than
whether a lit pixel was erased. -/
theorem C2_collision_without_erasure :
    (⟨List.replicate 4095 0 ++ [2]⟩ : Chip8Mem).load_sprite [0x80] 64 32 1 =
      .ok (⟨List.replicate 3840 0 ++ (List.replicate 255 0 ++ [3])⟩, true) ∧
      2 &&& (2 ^^^ 3) = 0 := by
  have hL : (List.replicate 4095 (0 : Nat) ++ [2]).length = 4096 := by
    rw [lenRA]; rfl
  refine ⟨?_, by decide⟩
  rw [@load_sprite_ok ⟨List.replicate 4095 0 ++ [2]⟩ [0x80] 64 32 1 hL]
  have hslice : (((⟨List.replicate 4095 0 ++ [2]⟩ : Chip8Mem).ram.drop 0xF00).take 0x100)
      = List.replicate 255 0 ++ [2] := by
    show ((List.replicate 4095 0 ++ [2]).drop 3840).take 256 = _
    rw [drop_repl_app (by omega)]
    show (List.replicate 255 0 ++ [2]).take 256 = _
    rw [take_len_app (by rw [List.length_replicate]; norm_num)]
  rw [hslice]
  have hnone : ∀ k, k < 255 →
      inBlit (sub8 (64 &&& 64) 1) (sub8 (32 &&& 32) 1) 1 (0 + k) = false := by
    intro k hk
    have hx : sub8 (64 &&& 64) 1 = 63 := by decide
    have hy : sub8 (32 &&& 32) 1 = 31 := by decide
    rw [hx, hy]
    simp only [inBlit, Nat.zero_add, Bool.and_eq_false_iff, decide_eq_false_iff_not]
    omega
  have hblit : blitGo [0x80] (sub8 (64 &&& 64) 1) (sub8 (32 &&& 32) 1) 1
      (List.replicate 255 0 ++ [2]) 0 0 false = (List.replicate 255 0 ++ [3], true) := by
    rw [blitGo_skip [0x80] (sub8 (64 &&& 64) 1) (sub8 (32 &&& 32) 1) 1 255 [2] 0 0 false
      hnone]
    have hq : blitGo [0x80] (sub8 (64 &&& 64) 1) (sub8 (32 &&& 32) 1) 1 [2] (0 + 255) 0
        false = ([3], true) := by decide
    rw [hq]
  simp only [hblit]
  have hset2 : setRam 0xF00 (List.replicate 255 0 ++ [3]) (List.replicate 4095 0 ++ [2]) 0
      = List.replicate 3840 0 ++ (List.replicate 255 0 ++ [3]) := by
    rw [setRam_eq 0xF00 (List.replicate 255 0 ++ [3]) (List.replicate 4095 0 ++ [2])
      (by rw [lenRA, lenRA]; norm_num)]
    rw [take_repl_app (by omega)]
    show _ ++ _ ++ (List.replicate 4095 0 ++ [2]).drop 4096 = _
    rw [drop_app_ge (by rw [List.length_replicate]; omega)]
    rw [List.length_replicate]
    rw [show (4096 - 4095 : Nat) = 1 from by norm_num]
    rw [List.append_assoc]
    rw [show ([2] : List Nat).drop 1 = [] from rfl]
    rw [List.append_nil]
  show Except.ok
      ((⟨setRam 0xF00 (List.replicate 255 0 ++ [3]) (List.replicate 4095 0 ++ [2]) 0⟩ :
        Chip8Mem), true) = _
  rw [hset2]

/-- Auxiliary: the display slice of the memory produced by writing a 256-byte
framebuffer back at 0xF00 is that framebuffer. -/
theorem slice_after_set {ram fb1 : List Nat} (hram : ram.length = 4096)
    (hfb1 : fb1.length = 256) :
    (((setRam 0xF00 fb1 ram 0).drop 0xF00).take 0x100) = fb1 := by
  apply list_eq_of_getD
  · rw [List.length_take, List.length_drop, setRam_length, hram, hfb1]
    omega
  · intro k
    by_cases hk : k < 256
    · rw [getD_take, if_pos hk, getD_drop, setRam_getD, if_pos (by omega)]
      have e : 0 + (0xF00 + k) - 0xF00 = k := by omega
      rw [e]
    · rw [getD_take, if_neg hk]
      exact (getD_ge (by omega)).symm

/-- Auxiliary: writing the original display slice back on top of a blitted
memory restores the original RAM. -/
theorem setRam_slice_of_setRam {ram fb1 : List Nat} (hram : ram.length = 4096)
    (hfb1 : fb1.length = 256) :
    setRam 0xF00 ((ram.drop 0xF00).take 0x100) (setRam 0xF00 fb1 ram 0) 0 = ram := by
  have hsl : ((ram.drop 0xF00).take 0x100).length = 256 := by
    rw [List.length_take, List.length_drop, hram]
    omega
  apply list_eq_of_getD
  · rw [setRam_length, setRam_length]
  · intro k
    rw [setRam_getD, setRam_getD]
    by_cases hk : 3840 ≤ k ∧ k < 4096
    · rw [if_pos (by rw [setRam_length]; omega)]
      rw [getD_take, if_pos (by omega), getD_drop]
      have e : 0xF00 + (0 + k - 0xF00) = k := by omega
      rw [e]
    · rw [if_neg (by rw [setRam_length]; omega), if_neg (by omega)]

/-- C3: blitting the identical sprite at the identical anchor twice restores
the RAM exactly, and if the first blit lit at least one pixel (some bit of
some byte went from 0 to 1) then the second blit returns collision = true. -/
theorem C3_blit_involution (m : Chip8Mem) (spr : List Nat) (xU yU n : Nat)
    (m1 m2 : Chip8Mem) (f1 f2 : Bool) (hram : m.ram.length = 4096)
    (h1 : m.load_sprite spr xU yU n = .ok (m1, f1))
    (h2 : m1.load_sprite spr xU yU n = .ok (m2, f2)) :
    m2.ram = m.ram ∧
      ((∃ t, 0 < m1.ram.getD t 0 &&& (m1.ram.getD t 0 ^^^ m.ram.getD t 0)) → f2 = true) := by
  have hfb0 : ((m.ram.drop 0xF00).take 0x100).length = 256 := by
    rw [List.length_take, List.length_drop, hram]
    omega
  have hfb1 : ((blitGo spr (sub8 (xU &&& 64) 1) (sub8 (yU &&& 32) 1) n
      ((m.ram.drop 0xF00).take 0x100) 0 0 false).1).length = 256 := by
    rw [blitGo_length]
    exact hfb0
  rw [@load_sprite_ok m spr xU yU n hram] at h1
  injection h1 with h1p
  injection h1p with hm1 hf1
  have hm1ram : m1.ram = setRam 0xF00 (blitGo spr (sub8 (xU &&& 64) 1) (sub8 (yU &&& 32) 1) n
      ((m.ram.drop 0xF00).take 0x100) 0 0 false).1 m.ram 0 := by
    rw [← hm1]
  have hram1 : m1.ram.length = 4096 := by
    rw [hm1ram, setRam_length, hram]
  rw [@load_sprite_ok m1 spr xU yU n hram1] at h2
  have hslice1 : ((m1.ram.drop 0xF00).take 0x100) =
      (blitGo spr (sub8 (xU &&& 64) 1) (sub8 (yU &&& 32) 1) n
        ((m.ram.drop 0xF00).take 0x100) 0 0 false).1 := by
    rw [hm1ram]
    exact slice_after_set hram hfb1
  rw [hslice1] at h2
  rw [blitGo_roundtrip spr (sub8 (xU &&& 64) 1) (sub8 (yU &&& 32) 1) n
    ((m.ram.drop 0xF00).take 0x100) 0 0 false false] at h2
  injection h2 with h2p
  injection h2p with hm2 hf2
  constructor
  · rw [← hm2, hm1ram]
    exact setRam_slice_of_setRam hram hfb1
  · rintro ⟨t, hlit⟩
    by_cases ht : 3840 ≤ t ∧ t < 4096
    · have hm1t : m1.ram.getD t 0 = (blitGo spr (sub8 (xU &&& 64) 1) (sub8 (yU &&& 32) 1) n
          ((m.ram.drop 0xF00).take 0x100) 0 0 false).1.getD (t - 3840) 0 := by
        rw [hm1ram, setRam_getD]
        split_ifs with hc
        · have e : 0 + t - 3840 = t - 3840 := by omega
          rw [e]
        · exfalso
          omega
      have hmt : m.ram.getD t 0 = ((m.ram.drop 0xF00).take 0x100).getD (t - 3840) 0 := by
        rw [getD_take, getD_drop]
        split_ifs with hc
        · have e : 3840 + (t - 3840) = t := by omega
          rw [e]
        · exfalso
          omega
      rw [hm1t, hmt] at hlit
      have hne : (blitGo spr (sub8 (xU &&& 64) 1) (sub8 (yU &&& 32) 1) n
          ((m.ram.drop 0xF00).take 0x100) 0 0 false).1.getD (t - 3840) 0 ≠ 0 := by
        intro h0
        rw [h0, Nat.zero_and] at hlit
        exact absurd hlit (lt_irrefl 0)
      have hchanged : (blitGo spr (sub8 (xU &&& 64) 1) (sub8 (yU &&& 32) 1) n
          ((m.ram.drop 0xF00).take 0x100) 0 0 false).1.getD (t - 3840) 0 ≠
          ((m.ram.drop 0xF00).take 0x100).getD (t - 3840) 0 := by
        intro he
        rw [he, Nat.xor_self, Nat.and_zero] at hlit
        exact absurd hlit (lt_irrefl 0)
      have htouched : inBlit (sub8 (xU &&& 64) 1) (sub8 (yU &&& 32) 1) n (t - 3840) = true := by
        cases hB : inBlit (sub8 (xU &&& 64) 1) (sub8 (yU &&& 32) 1) n (t - 3840) with
        | true => rfl
        | false =>
            exact absurd (blitGo_untouched spr (sub8 (xU &&& 64) 1) (sub8 (yU &&& 32) 1) n
              ((m.ram.drop 0xF00).take 0x100) 0 0 false (t - 3840) (by simpa using hB)) hchanged
      rw [← hf2]
      exact blitGo_flag spr (sub8 (xU &&& 64) 1) (sub8 (yU &&& 32) 1) n
        (blitGo spr (sub8 (xU &&& 64) 1) (sub8 (yU &&& 32) 1) n
          ((m.ram.drop 0xF00).take 0x100) 0 0 false).1 0 0 false (t - 3840)
        (by simpa using htouched) hne
    · have heq : m1.ram.getD t 0 = m.ram.getD t 0 := by
        rw [hm1ram, setRam_getD]
        split_ifs with hc
        · exfalso
          omega
        · rfl
      rw [heq, Nat.xor_self, Nat.and_zero] at hlit
      exact absurd hlit (lt_irrefl 0)

/-- First concrete blit for the C3 witness: sprite 0xFF at capped anchor
(63, 31) on the all-zero RAM lights bit 0 of the last display byte. -/
theorem c3_step1 : mem0.load_sprite [0xFF] 64 32 1 =
    .ok (⟨List.replicate 3840 0 ++ (List.replicate 255 0 ++ [1])⟩, false) := by
  rw [@load_sprite_ok mem0 [0xFF] 64 32 1 mem0_len]
  have hslice : ((mem0.ram.drop 0xF00).take 0x100) = List.replicate 256 0 := by
    show ((List.replicate 4096 0).drop 3840).take 256 = _
    rw [List.drop_replicate]
    show (List.replicate 256 0).take 256 = _
    rw [List.take_replicate]
    norm_num
  rw [hslice]
  have hblit : blitGo [0xFF] (sub8 (64 &&& 64) 1) (sub8 (32 &&& 32) 1) 1
      (List.replicate 256 0) 0 0 false = (List.replicate 255 0 ++ [1], false) := by
    decide
  simp only [hblit]
  have hset : setRam 0xF00 (List.replicate 255 0 ++ [1]) (List.replicate 4096 0) 0
      = List.replicate 3840 0 ++ (List.replicate 255 0 ++ [1]) := by
    rw [setRam_eq 0xF00 (List.replicate 255 0 ++ [1]) (List.replicate 4096 0)
      (by rw [lenRA, List.length_replicate]; norm_num)]
    rw [List.take_replicate]
    show List.replicate 3840 0 ++ _ ++ (List.replicate 4096 0).drop 4096 = _
    rw [List.drop_replicate]
    show List.replicate 3840 0 ++ (List.replicate 255 0 ++ [1]) ++ [] = _
    rw [List.append_nil]
  show Except.ok ((⟨setRam 0xF00 (List.replicate 255 0 ++ [1]) (List.replicate 4096 0) 0⟩ :
      Chip8Mem), false) = _
  rw [hset]

/-- Second concrete blit for the C3 witness: the same sprite at the same
anchor erases the pixel again and reports a collision. -/
theorem c3_step2 :
    (⟨List.replicate 3840 0 ++ (List.replicate 255 0 ++ [1])⟩ : Chip8Mem).load_sprite
        [0xFF] 64 32 1 =
      .ok (⟨List.replicate 3840 0 ++ (List.replicate 255 0 ++ [0])⟩, true) := by
  have hL : (List.replicate 3840 (0 : Nat) ++ (List.replicate 255 0 ++ [1])).length = 4096 := by
    rw [lenRA, lenRA]; rfl
  rw [@load_sprite_ok ⟨List.replicate 3840 0 ++ (List.replicate 255 0 ++ [1])⟩ [0xFF] 64 32 1 hL]
  have hslice : (((⟨List.replicate 3840 0 ++ (List.replicate 255 0 ++ [1])⟩ :
      Chip8Mem).ram.drop 0xF00).take 0x100) = List.replicate 255 0 ++ [1] := by
    show ((List.replicate 3840 0 ++ (List.replicate 255 0 ++ [1])).drop 3840).take 256 = _
    rw [drop_repl_app (by omega)]
    show (List.replicate 0 0 ++ (List.replicate 255 0 ++ [1])).take 256 = _
    rw [List.replicate_zero, List.nil_append]
    rw [take_len_app (by rw [List.length_replicate]; norm_num)]
  rw [hslice]
  have hblit : blitGo [0xFF] (sub8 (64 &&& 64) 1) (sub8 (32 &&& 32) 1) 1
      (List.replicate 255 0 ++ [1]) 0 0 false = (List.replicate 255 0 ++ [0], true) := by
    decide
  simp only [hblit]
  have hset : setRam 0xF00 (List.replicate 255 0 ++ [0])
      (List.replicate 3840 0 ++ (List.replicate 255 0 ++ [1])) 0
      = List.replicate 3840 0 ++ (List.replicate 255 0 ++ [0]) := by
    rw [setRam_eq 0xF00 (List.replicate 255 0 ++ [0])
      (List.replicate 3840 0 ++ (List.replicate 255 0 ++ [1]))
      (by rw [lenRA, hL]; norm_num)]
    rw [take_repl_app (by omega)]
    show _ ++ _ ++ (List.replicate 3840 0 ++ (List.replicate 255 0 ++ [1])).drop 4096 = _
    rw [drop_app_ge (by rw [List.length_replicate]; omega)]
    rw [List.length_replicate]
    rw [show (4096 - 3840 : Nat) = 256 from by norm_num]
    rw [drop_app_ge (by rw [List.length_replicate]; omega)]
    rw [List.length_replicate]
    rw [show (256 - 255 : Nat) = 1 from by norm_num]
    rw [show ([1] : List Nat).drop 1 = [] from rfl]
    rw [List.append_nil]
  show Except.ok ((⟨setRam 0xF00 (List.replicate 255 0 ++ [0])
      (List.replicate 3840 0 ++ (List.replicate 255 0 ++ [1])) 0⟩ : Chip8Mem), true) = _
  rw [hset]

/-- C3 witness: the involution theorem applied at the concrete double blit of
sprite 0xFF at (64, 32) on the all-zero RAM. -/
theorem C3_blit_involution_witness :
    mem0.ram.length = 4096 ∧
    (⟨List.replicate 3840 0 ++ (List.replicate 255 0 ++ [0])⟩ : Chip8Mem).ram = mem0.ram :=
  ⟨mem0_len,
    (C3_blit_involution mem0 [0xFF] 64 32 1
      ⟨List.replicate 3840 0 ++ (List.replicate 255 0 ++ [1])⟩
      ⟨List.replicate 3840 0 ++ (List.replicate 255 0 ++ [0])⟩ false true
      mem0_len c3_step1 c3_step2).1⟩

/-- C9 (amended): get fails exactly when addr + len exceeds 4096; set fails
on those inputs as well, and additionally on the degenerate empty write at
address 0, where the bound computation addr + len - 1 wraps around in usize
arithmetic; all other writes and reads succeed.  A failing set returns only
an error value, so the RAM is unchanged. -/
theorem C9_mem_bounds (m : Chip8Mem) (a l : Nat) (c : List Nat)
    (hm : m.ram.length = 4096) (hc : c.length = l) :
    (a + l > 4096 → m.get a l = .error .invalidAccess ∧ m.set a c = .error .invalidAccess) ∧
    (a + l ≤ 4096 → (∃ bs, m.get a l = .ok bs) ∧ (1 ≤ l → ∃ m2, m.set a c = .ok m2)) ∧
    (a = 0 ∧ l = 0 → m.set a c = .error .invalidAccess) := by
  refine ⟨fun h => ⟨get_err (by omega), set_err (by omega)⟩, fun h => ?_, fun h => ?_⟩
  · exact ⟨⟨_, get_ok (by omega)⟩, fun hl => ⟨_, set_ok (by omega) (by omega)⟩⟩
  · exact set_err (by omega)

/-- C9 counterexample to the claim as stated: the empty write at address 0
satisfies a + l = 0 ≤ 4096, yet set rejects it. -/
theorem C9_counterexample :
    mem0.set 0 [] = .error .invalidAccess ∧ 0 + 0 ≤ 4096 :=
  ⟨set_err (by norm_num), by norm_num⟩

/-- C9 witness: a two-byte read at address 0 on the all-zero RAM succeeds. -/
theorem C9_mem_bounds_witness :
    (mem0.ram.length = 4096 ∧ ([1, 2] : List Nat).length = 2) ∧
    (0 + 2 ≤ 4096 ∧ ∃ bs, mem0.get 0 2 = .ok bs) :=
  ⟨⟨mem0_len, rfl⟩, by norm_num,
    ((C9_mem_bounds mem0 0 2 [1, 2] mem0_len rfl).2.1 (by norm_num)).1⟩

/-! ### The processor (systems.rs)

The Chip8 struct of systems.rs, with the host-environment pieces replaced by
per-call oracles: the wall-clock test last_frame.elapsed() >= 16.6ms becomes
the Boolean argument tick of one advance call, the random generator becomes
the byte argument rand, and the winit input handle becomes an Input record of
the three key queries the core uses.  Logical keys are identified with their
hex values 0x0 to 0xF through the fixed keycode tables of the source (the
probe and resolve tables agree on this bijection).  The pc_backtrace field
and the audio sink are diagnostics/output only and are not modelled.  u16
additions that cannot overflow for states satisfying the 12-bit masking
invariant of the source are modelled as plain addition. -/
structure Chip8 where
  i : Nat
  sp : Nat
  pc : Nat
  v : List Nat
  delay : Nat
  sound : Nat
  ram : Chip8Mem
  draw_allowed : Bool
  waitkey : Option Nat × Nat
deriving DecidableEq, Repr

/-- The key queries the core performs on the winit input helper. -/
structure Input where
  pressed : Option Nat
  released : Nat → Bool
  held : Nat → Bool

/-- Result of one exec_instruction call: normal return, error return (with
the mutated state self was left in), or a panic / unreachable. -/
inductive Outcome where
  | ok (s : Chip8)
  | err (e : ExecError) (s : Chip8)
  | panicked (s : Chip8)
deriving DecidableEq, Repr

/-- The fall-through tail of exec_instruction: self.pc = (self.pc + 2) & 0xFFF. -/
def advancePC (s : Chip8) : Chip8 := { s with pc := (s.pc + 2) &&& 0xFFF }

/-- The timing gate at the top of exec_instruction: on a 60Hz tick the draw
gate re-opens and both timers saturating-decrement. -/
def tickGate (s : Chip8) (tick : Bool) : Chip8 :=
  if tick then { s with draw_allowed := true, sound := s.sound - 1, delay := s.delay - 1 }
  else s

/-- The 8xy_ ALU group of exec_instruction; none is the invalid-operation
arm.  Assignments to v are sequenced exactly as in the source, so a flag
write to VF after a result write to the same register wins. -/
def execAlu (v : List Nat) (x y op : Nat) : Option (List Nat) :=
  if op = 0x0 then some (v.set x (v.getD y 0))
  else if op = 0x1 then some ((v.set x (v.getD x 0 ||| v.getD y 0)).set 0xF 0)
  else if op = 0x2 then some ((v.set x (v.getD x 0 &&& v.getD y 0)).set 0xF 0)
  else if op = 0x3 then some ((v.set x (v.getD x 0 ^^^ v.getD y 0)).set 0xF 0)
  else if op = 0x4 then
    some ((v.set x ((v.getD x 0 + v.getD y 0) &&& 255)).set 0xF
      (if 256 ≤ v.getD x 0 + v.getD y 0 then 1 else 0))
  else if op = 0x5 then
    some ((v.set x (sub8 (v.getD x 0) (v.getD y 0))).set 0xF
      (1 - (if v.getD x 0 < v.getD y 0 then 1 else 0)))
  else if op = 0x6 then
    let v1 := v.set x (v.getD y 0)
    let carry := v1.getD x 0 &&& 0x01
    some ((v1.set x (v1.getD x 0 >>> 1)).set 0xF carry)
  else if op = 0x7 then
    some ((v.set x (sub8 (v.getD y 0) (v.getD x 0))).set 0xF
      (1 - (if v.getD y 0 < v.getD x 0 then 1 else 0)))
  else if op = 0xE then
    let v1 := v.set x (v.getD y 0)
    let carry := (v1.getD x 0 &&& 0x80) >>> 7
    some ((v1.set x ((v1.getD x 0 <<< 1) &&& 255)).set 0xF carry)
  else none

/-- The for-loop of the Fx55 STORE arm: set_byte for indices 0..=n, stopping
at the first error and keeping the writes already made. -/
def storeLoop : Chip8Mem → Nat → List Nat → Nat → Nat → Chip8Mem × Option ExecError
  | m, _, _, _, 0 => (m, none)
  | m, ia, v, idx, fuel + 1 =>
      match m.set_byte (ia + idx) (v.getD idx 0) with
      | .error e => (m, some e)
      | .ok m2 => storeLoop m2 ia v (idx + 1) fuel

/-- The decode/execute match of exec_instruction over the four instruction
nibbles (a, x, y, nn).  Arms that return early in the source do not call
advancePC; all others fall through to it.  The unreachable! arms (sprite
height above 0xF, key byte above 0xF inside is_key_pressed) are the
panicked outcome. -/
def execOp (s : Chip8) (inp : Input) (rand : Nat) (a x y nn : Nat) : Outcome :=
  if a = 0x0 then
    if x = 0x0 ∧ y = 0xE ∧ nn = 0x0 then
      match s.ram.set 0xF00 (List.replicate 256 0) with
      | .error e => .err e s
      | .ok r => .ok (advancePC { s with ram := r })
    else if x = 0x0 ∧ y = 0xE ∧ nn = 0xE then
      let s1 := { s with sp := sub16 s.sp 2 }
      if s1.sp < 0xEA0 then .err .anyhowMsg s1
      else
        match s1.ram.get s1.sp 2 with
        | .error e => .err e s1
        | .ok ab => .ok (advancePC { s1 with pc := (ab.getD 0 0) * 256 + ab.getD 1 0 })
    else .err .anyhowMsg s
  else if a = 0x1 then
    .ok { s with pc := x * 256 + ((y <<< 4) + nn) }
  else if a = 0x2 then
    if 0xF00 ≤ s.sp then .err .invalidInstruction s
    else
      let r := match s.ram.set s.sp [(s.pc >>> 8) &&& 0xFF, s.pc &&& 0xFF] with
               | .ok r => r
               | .error _ => s.ram
      .ok { s with ram := r, sp := s.sp + 2, pc := x * 256 + ((y <<< 4) + nn) }
  else if a = 0x3 then
    .ok (advancePC (if s.v.getD x 0 = (y <<< 4) + nn then
      { s with pc := (s.pc + 2) &&& 0xFFF } else s))
  else if a = 0x4 then
    .ok (advancePC (if s.v.getD x 0 ≠ (y <<< 4) + nn then
      { s with pc := (s.pc + 2) &&& 0xFFF } else s))
  else if a = 0x5 then
    if nn = 0x0 then
      .ok (advancePC (if s.v.getD x 0 = s.v.getD y 0 then
        { s with pc := (s.pc + 2) &&& 0xFFF } else s))
    else .err .invalidInstruction s
  else if a = 0x6 then
    .ok (advancePC { s with v := s.v.set x ((y <<< 4) + nn) })
  else if a = 0x7 then
    .ok (advancePC { s with v := s.v.set x ((s.v.getD x 0 + ((y <<< 4) + nn)) &&& 255) })
  else if a = 0x8 then
    match execAlu s.v x y nn with
    | none => .err .invalidInstruction s
    | some v2 => .ok (advancePC { s with v := v2 })
  else if a = 0x9 then
    if nn = 0x0 then
      .ok (advancePC (if s.v.getD x 0 ≠ s.v.getD y 0 then
        { s with pc := (s.pc + 2) &&& 0xFFF } else s))
    else .err .invalidInstruction s
  else if a = 0xA then
    .ok (advancePC { s with i := x * 256 + ((y <<< 4) + nn) })
  else if a = 0xB then
    .ok { s with pc := (s.v.getD 0 0 + (x * 256 + ((y <<< 4) + nn))) &&& 0xFFF }
  else if a = 0xC then
    .ok (advancePC { s with v := s.v.set x (rand &&& ((y <<< 4) + nn)) })
  else if a = 0xD then
    if 0xF < nn then .panicked s
    else if s.draw_allowed then
      let s1 := { s with draw_allowed := false }
      match s1.ram.get s1.i nn with
      | .error e => .err e s1
      | .ok spr =>
          match s1.ram.load_sprite spr (s1.v.getD x 0) (s1.v.getD y 0) nn with
          | .error e => .err e s1
          | .ok mf =>
              let vf := if mf.2 then 1 else 0
              .ok (advancePC { s1 with ram := mf.1, v := s1.v.set 0xF vf })
    else
      .ok (advancePC { s with pc := sub16 s.pc 2 })
  else if a = 0xE then
    if y = 0x9 ∧ nn = 0xE then
      if 0xF < s.v.getD x 0 then .panicked s
      else .ok (advancePC (if inp.held (s.v.getD x 0) then { s with pc := s.pc + 2 } else s))
    else if y = 0xA ∧ nn = 0x1 then
      if 0xF < s.v.getD x 0 then .panicked s
      else .ok (advancePC (if inp.held (s.v.getD x 0) then s else { s with pc := s.pc + 2 }))
    else .err .invalidInstruction s
  else if a = 0xF then
    if (y <<< 4) + nn = 0x07 then .ok (advancePC { s with v := s.v.set x s.delay })
    else if (y <<< 4) + nn = 0x0A then
      match inp.pressed with
      | some k => .ok (advancePC { s with waitkey := (some k, x) })
      | none => .ok (advancePC { s with pc := sub16 s.pc 2 })
    else if (y <<< 4) + nn = 0x15 then .ok (advancePC { s with delay := s.v.getD x 0 })
    else if (y <<< 4) + nn = 0x18 then .ok (advancePC { s with sound := s.v.getD x 0 })
    else if (y <<< 4) + nn = 0x1E then
      .ok (advancePC { s with i := (s.i + s.v.getD x 0) &&& 0xFFF })
    else if (y <<< 4) + nn = 0x29 then
      .ok (advancePC { s with i := 0x50 + 5 * (s.v.getD x 0 &&& 0x0F) })
    else if (y <<< 4) + nn = 0x33 then
      match s.ram.set_byte s.i (s.v.getD x 0 / 100) with
      | .error e => .err e s
      | .ok m1 =>
          match (Chip8Mem.set_byte m1 (s.i + 1) ((s.v.getD x 0 % 100) / 10)) with
          | .error e => .err e { s with ram := m1 }
          | .ok m2 =>
              match (Chip8Mem.set_byte m2 (s.i + 2) (s.v.getD x 0 % 10)) with
              | .error e => .err e { s with ram := m2 }
              | .ok m3 => .ok (advancePC { s with ram := m3 })
    else if (y <<< 4) + nn = 0x55 then
      if 0xFFF < s.i + (x &&& 0x0F) then .err .invalidAccess s
      else
        match storeLoop s.ram s.i s.v 0 (x + 1) with
        | (m2, some e) => .err e { s with ram := m2 }
        | (m2, none) => .ok (advancePC { s with ram := m2, i := (s.i + x + 1) &&& 0xFFF })
    else if (y <<< 4) + nn = 0x65 then
      if 0xFFF < s.i + (x &&& 0x0F) then .err .invalidAccess s
      else
        match s.ram.get s.i (x + 1) with
        | .error e => .err e s
        | .ok regs =>
            let v2 := regs.take (x + 1) ++ s.v.drop (x + 1)
            .ok (advancePC { s with v := v2, i := (s.i + x + 1) &&& 0xFFF })
    else .err .invalidInstruction s
  else .err .invalidInstruction s

/-- The body of exec_instruction after the key-wait check: run the timing
gate, fetch two bytes at PC (panicking like the source's unwrap_or_else on
an out-of-range PC), split them into nibbles and dispatch. -/
def execCore (s0 : Chip8) (tick : Bool) (inp : Input) (rand : Nat) : Outcome :=
  let s := tickGate s0 tick
  match s.ram.get s.pc 2 with
  | .error _ => .panicked s
  | .ok op =>
      execOp s inp rand ((op.getD 0 0) >>> 4) ((op.getD 0 0) &&& 0x0F)
        ((op.getD 1 0) >>> 4) ((op.getD 1 0) &&& 0x0F)

/-- One advance-one-instruction call (System::exec_instruction for Chip8):
a pending key-wait record is checked first, before the timing gate; if the
key has not been released the call returns Ok with the state untouched,
otherwise the destination register receives the key value, the record is
cleared and the call proceeds into the ordinary fetch/decode/execute. -/
def exec_instruction (s : Chip8) (tick : Bool) (inp : Input) (rand : Nat) : Outcome :=
  match s.waitkey.1 with
  | some key =>
      if inp.released key then
        execCore { s with v := s.v.set s.waitkey.2 key, waitkey := (none, 0) } tick inp rand
      else .ok s
  | none => execCore s tick inp rand

/-! ### Exec-level proof toolkit -/

theorem tickGate_false (s : Chip8) : tickGate s false = s := by
  rw [tickGate, if_neg (by simp)]

theorem tickGate_ram (s : Chip8) (t : Bool) : (tickGate s t).ram = s.ram := by
  rw [tickGate]
  split_ifs <;> rfl

theorem tickGate_pc (s : Chip8) (t : Bool) : (tickGate s t).pc = s.pc := by
  rw [tickGate]
  split_ifs <;> rfl

theorem tickGate_sp (s : Chip8) (t : Bool) : (tickGate s t).sp = s.sp := by
  rw [tickGate]
  split_ifs <;> rfl

theorem tickGate_i (s : Chip8) (t : Bool) : (tickGate s t).i = s.i := by
  rw [tickGate]
  split_ifs <;> rfl

theorem tickGate_v (s : Chip8) (t : Bool) : (tickGate s t).v = s.v := by
  rw [tickGate]
  split_ifs <;> rfl

theorem tickGate_waitkey (s : Chip8) (t : Bool) : (tickGate s t).waitkey = s.waitkey := by
  rw [tickGate]
  split_ifs <;> rfl

theorem exec_no_waitkey {s : Chip8} (tick : Bool) (inp : Input) (rand : Nat)
    (hw : s.waitkey.1 = none) :
    exec_instruction s tick inp rand = execCore s tick inp rand := by
  rw [exec_instruction, hw]

theorem execCore_fetch {s : Chip8} (tick : Bool) (inp : Input) (rand : Nat) {b0 b1 : Nat}
    (hpc : s.pc + 2 ≤ s.ram.ram.length)
    (hb0 : s.ram.ram.getD s.pc 0 = b0) (hb1 : s.ram.ram.getD (s.pc + 1) 0 = b1) :
    execCore s tick inp rand =
      execOp (tickGate s tick) inp rand (b0 >>> 4) (b0 &&& 0x0F) (b1 >>> 4) (b1 &&& 0x0F) := by
  have hf : (tickGate s tick).ram.get (tickGate s tick).pc 2 = .ok [b0, b1] := by
    rw [tickGate_ram, tickGate_pc, get_two hpc, hb0, hb1]
  simp only [execCore, hf, List.getD_cons_zero, List.getD_cons_succ]

theorem set_inv {m : Chip8Mem} {a : Nat} {c : List Nat} {mr : Chip8Mem}
    (h : m.set a c = .ok mr) : mr.ram = setRam a c m.ram 0 := by
  rw [Chip8Mem.set] at h
  split_ifs at h
  injection h with h2
  rw [← h2]

theorem execOp_waitkey_none (s : Chip8) (inp : Input) (rand x : Nat)
    (hp : inp.pressed = none) :
    execOp s inp rand 0xF x 0x0 0xA = .ok (advancePC { s with pc := sub16 s.pc 2 }) := by
  simp only [execOp, hp]
  norm_num [shl4]

theorem execOp_waitkey_press (s : Chip8) (inp : Input) (rand x k : Nat)
    (hp : inp.pressed = some k) :
    execOp s inp rand 0xF x 0x0 0xA = .ok (advancePC { s with waitkey := (some k, x) }) := by
  simp only [execOp, hp]
  norm_num [shl4]

theorem execOp_rts_underflow (s : Chip8) (inp : Input) (rand : Nat) (hsp : s.sp = 0xEA0) :
    execOp s inp rand 0x0 0x0 0xE 0xE = .err .anyhowMsg { s with sp := 0xE9E } := by
  have hs2 : sub16 0xEA0 2 = 0xE9E := by decide
  simp only [execOp, hsp, hs2]
  norm_num

theorem execOp_rts (s : Chip8) (inp : Input) (rand : Nat) (hi lo : Nat)
    (hsp1 : 0xEA2 ≤ s.sp) (hsp2 : s.sp ≤ 0x10000)
    (hpop : s.ram.get (s.sp - 2) 2 = .ok [hi, lo]) :
    execOp s inp rand 0x0 0x0 0xE 0xE =
      .ok { s with sp := s.sp - 2, pc := (hi * 256 + lo + 2) &&& 0xFFF } := by
  have hs2 : sub16 s.sp 2 = s.sp - 2 := by rw [sub16_def]; omega
  simp only [execOp, hs2]
  norm_num
  rw [if_neg (by omega), hpop]
  simp only [List.getD_cons_zero, List.getD_cons_succ, advancePC]
  simp

theorem execOp_call (s : Chip8) (inp : Input) (rand : Nat) (b m l : Nat) (mr : Chip8Mem)
    (hsp : s.sp < 0xF00)
    (hpush : s.ram.set s.sp [(s.pc >>> 8) &&& 0xFF, s.pc &&& 0xFF] = .ok mr) :
    execOp s inp rand 0x2 b m l =
      .ok { s with ram := mr, sp := s.sp + 2, pc := b * 256 + ((m <<< 4) + l) } := by
  simp only [execOp, hpush]
  norm_num
  exact fun h2 => absurd h2 (by omega)

theorem execOp_call_overflow (s : Chip8) (inp : Input) (rand : Nat) (b m l : Nat)
    (hsp : 0xF00 ≤ s.sp) :
    execOp s inp rand 0x2 b m l = .err .invalidInstruction s := by
  simp only [execOp]
  norm_num
  exact fun h2 => absurd hsp (by omega)

theorem execOp_draw_closed (s : Chip8) (inp : Input) (rand x y nn : Nat)
    (hg : s.draw_allowed = false) (hnn : nn ≤ 0xF) :
    execOp s inp rand 0xD x y nn = .ok (advancePC { s with pc := sub16 s.pc 2 }) := by
  simp only [execOp, hg]
  norm_num
  omega

theorem execOp_draw_open (s : Chip8) (inp : Input) (rand x y nn : Nat) (spr : List Nat)
    (mf : Chip8Mem × Bool) (hg : s.draw_allowed = true) (hnn : nn ≤ 0xF)
    (hspr : s.ram.get s.i nn = .ok spr)
    (hblit : s.ram.load_sprite spr (s.v.getD x 0) (s.v.getD y 0) nn = .ok mf) :
    execOp s inp rand 0xD x y nn =
      .ok (advancePC { s with draw_allowed := false, ram := mf.1, v := s.v.set 0xF (if mf.2 then 1 else 0) }) := by
  simp only [execOp, hg, hspr, hblit]
  norm_num
  omega

/-! ### Claim C4: the WAIT-KEY quirk -/

/-- C4 (amended): the key-wait check runs before the timing gate.  While a
record is pending and the key unreleased the call returns Ok with the state
entirely untouched (in particular the timers are NOT decremented); when the
release is observed the destination register receives the key value, the
record is cleared and the call continues into the ordinary
gate/fetch/execute body; a WAIT-KEY with no fresh press leaves PC in place;
a WAIT-KEY that observes a press stores the record and advances PC past the
instruction on that same call. -/
theorem C4_waitkey_behavior :
    (∀ (s : Chip8) (tick : Bool) (inp : Input) (rand k : Nat),
      s.waitkey.1 = some k → inp.released k = false →
      exec_instruction s tick inp rand = .ok s) ∧
    (∀ (s : Chip8) (tick : Bool) (inp : Input) (rand k : Nat),
      s.waitkey.1 = some k → inp.released k = true →
      exec_instruction s tick inp rand =
        execCore { s with v := s.v.set s.waitkey.2 k, waitkey := (none, 0) } tick inp rand) ∧
    (∀ (s : Chip8) (tick : Bool) (inp : Input) (rand x : Nat),
      s.waitkey.1 = none → s.pc + 2 ≤ s.ram.ram.length →
      s.ram.ram.getD s.pc 0 = 0xF0 + x → s.ram.ram.getD (s.pc + 1) 0 = 0x0A → x < 16 →
      inp.pressed = none → 2 ≤ s.pc → s.pc ≤ 0xFFF →
      exec_instruction s tick inp rand = .ok (tickGate s tick)) ∧
    (∀ (s : Chip8) (tick : Bool) (inp : Input) (rand x k : Nat),
      s.waitkey.1 = none → s.pc + 2 ≤ s.ram.ram.length →
      s.ram.ram.getD s.pc 0 = 0xF0 + x → s.ram.ram.getD (s.pc + 1) 0 = 0x0A → x < 16 →
      inp.pressed = some k →
      exec_instruction s tick inp rand =
        .ok { tickGate s tick with waitkey := (some k, x), pc := ((tickGate s tick).pc + 2) &&& 0xFFF }) := by
  refine ⟨?_, ?_, ?_, ?_⟩
  · intro s tick inp rand k hw hrel
    simp only [exec_instruction, hw, hrel, Bool.false_eq_true, if_false]
  · intro s tick inp rand k hw hrel
    simp only [exec_instruction, hw, hrel, if_true]
  · intro s tick inp rand x hw hpc hb0 hb1 hx hp hpc2 hpc3
    rw [exec_no_waitkey tick inp rand hw]
    rw [execCore_fetch tick inp rand hpc hb0 hb1]
    have e1 : (0xF0 + x) >>> 4 = 0xF := by rw [shr4]; omega
    have e2 : (0xF0 + x) &&& 0x0F = x := by rw [and15]; omega
    have e3 : (0x0A : Nat) >>> 4 = 0x0 := by decide
    have e4 : (0x0A : Nat) &&& 0x0F = 0x0A := by decide
    rw [e1, e2, e3, e4]
    rw [execOp_waitkey_none _ inp rand x hp]
    have e5 : (sub16 (tickGate s tick).pc 2 + 2) &&& 0xFFF = (tickGate s tick).pc := by
      rw [tickGate_pc, sub16_def, and4095]
      omega
    simp only [advancePC]
    rw [e5]
  · intro s tick inp rand x k hw hpc hb0 hb1 hx hp
    rw [exec_no_waitkey tick inp rand hw]
    rw [execCore_fetch tick inp rand hpc hb0 hb1]
    have e1 : (0xF0 + x) >>> 4 = 0xF := by rw [shr4]; omega
    have e2 : (0xF0 + x) &&& 0x0F = x := by rw [and15]; omega
    have e3 : (0x0A : Nat) >>> 4 = 0x0 := by decide
    have e4 : (0x0A : Nat) &&& 0x0F = 0x0A := by decide
    rw [e1, e2, e3, e4]
    rw [execOp_waitkey_press _ inp rand x k hp]
    simp only [advancePC]

/-- Freshly initialised processor (System::init), without host handles. -/
def chip0 : Chip8 :=
  ⟨0, 0xEA0, 0x200, List.replicate 16 0, 0, 0, mem0, true, (none, 0)⟩

/-- Input oracle with no key activity. -/
def inputNone : Input := ⟨none, fun _ => false, fun _ => false⟩

/-- Input oracle reporting exactly one key as just released. -/
def inputRel (r : Nat) : Input := ⟨none, fun k => decide (k = r), fun _ => false⟩

/-- Input oracle reporting exactly one key as just pressed. -/
def inputPress (p : Nat) : Input := ⟨some p, fun _ => false, fun _ => false⟩

/-- RAM holding the WAIT-KEY instruction F00A at address 2. -/
def ramFx0A : Chip8Mem := ⟨[0x00, 0x00, 0xF0, 0x0A] ++ List.replicate 4092 0⟩

theorem ramFx0A_len : ramFx0A.ram.length = 4096 := by
  show ([0x00, 0x00, 0xF0, 0x0A] ++ List.replicate 4092 (0 : Nat)).length = 4096
  rw [List.length_append, List.length_replicate]
  rfl

/-- Processor stopped on the WAIT-KEY instruction at PC = 2. -/
def c4wait : Chip8 := { chip0 with ram := ramFx0A, pc := 2 }

/-- C4, counterexample to the claim as stated: with a pending key-wait record
and the key not yet released, a call in which a 60Hz tick elapsed returns
with the state untouched; the delay timer stays at 5 even though a run of
the TimingGate would have brought it to 4, so no call outcome with the
decremented timer exists. -/
theorem C4_counterexample :
    exec_instruction { chip0 with delay := 5, waitkey := (some 5, 0) } true inputNone 0 =
      .ok { chip0 with delay := 5, waitkey := (some 5, 0) } ∧
    (tickGate { chip0 with delay := 5, waitkey := (some 5, 0) } true).delay = 4 ∧
    ¬(∃ s2, exec_instruction { chip0 with delay := 5, waitkey := (some 5, 0) } true inputNone 0 =
        .ok s2 ∧ s2.delay = 4) := by
  have h1 : exec_instruction { chip0 with delay := 5, waitkey := (some 5, 0) } true inputNone 0 =
      .ok { chip0 with delay := 5, waitkey := (some 5, 0) } := rfl
  refine ⟨h1, rfl, ?_⟩
  rintro ⟨s2, h2, hd⟩
  rw [h1] at h2
  injection h2 with h3
  rw [← h3] at hd
  exact absurd hd (by decide)

/-- C4 witness: the four amended behaviors at concrete states: a pending
unreleased wait (key 5), a pending released wait (key 7 into V3), a WAIT-KEY
with no press, and a WAIT-KEY observing a press of key 5. -/
theorem C4_waitkey_behavior_witness :
    (exec_instruction { chip0 with waitkey := (some 5, 0) } false inputNone 0 =
      .ok { chip0 with waitkey := (some 5, 0) }) ∧
    (exec_instruction { chip0 with waitkey := (some 7, 3) } false (inputRel 7) 0 =
      execCore { { chip0 with waitkey := (some 7, 3) } with v := ({ chip0 with waitkey := (some 7, 3) } : Chip8).v.set ({ chip0 with waitkey := (some 7, 3) } : Chip8).waitkey.2 7, waitkey := (none, 0) } false (inputRel 7) 0) ∧
    (exec_instruction c4wait false inputNone 0 = .ok (tickGate c4wait false)) ∧
    (exec_instruction c4wait false (inputPress 5) 0 =
      .ok { tickGate c4wait false with waitkey := (some 5, 0), pc := ((tickGate c4wait false).pc + 2) &&& 0xFFF }) := by
  refine ⟨?_, ?_, ?_, ?_⟩
  · exact C4_waitkey_behavior.1 { chip0 with waitkey := (some 5, 0) } false inputNone 0 5 rfl rfl
  · exact C4_waitkey_behavior.2.1 { chip0 with waitkey := (some 7, 3) } false (inputRel 7) 0 7
      rfl rfl
  · refine C4_waitkey_behavior.2.2.1 c4wait false inputNone 0 0 rfl ?_ ?_ ?_ (by norm_num) rfl
      (by decide) (by decide)
    · rw [show c4wait.ram.ram.length = 4096 from ramFx0A_len]
      decide
    · show ([0x00, 0x00, 0xF0, 0x0A] ++ List.replicate 4092 (0 : Nat)).getD 2 0 = 0xF0 + 0
      rw [getD_app]
      norm_num
    · show ([0x00, 0x00, 0xF0, 0x0A] ++ List.replicate 4092 (0 : Nat)).getD 3 0 = 0x0A
      rw [getD_app]
      norm_num
  · refine C4_waitkey_behavior.2.2.2 c4wait false (inputPress 5) 0 0 5 rfl ?_ ?_ ?_ (by norm_num)
      rfl
    · rw [show c4wait.ram.ram.length = 4096 from ramFx0A_len]
      decide
    · show ([0x00, 0x00, 0xF0, 0x0A] ++ List.replicate 4092 (0 : Nat)).getD 2 0 = 0xF0 + 0
      rw [getD_app]
      norm_num
    · show ([0x00, 0x00, 0xF0, 0x0A] ++ List.replicate 4092 (0 : Nat)).getD 3 0 = 0x0A
      rw [getD_app]
      norm_num

/-! ### Claim C5: out-of-range opcode fetch -/

/-- C5 (amended): when reading the two instruction bytes at PC would cross
the 4096-byte boundary, exec_instruction panics (the source unwraps the
fetch with unwrap_or_else(... panic!)); it does not return an error value
to its caller. -/
theorem C5_fetch_oob_panics (s : Chip8) (tick : Bool) (inp : Input) (rand : Nat)
    (hw : s.waitkey.1 = none) (hram : s.ram.ram.length = 4096) (hpc : 4096 < s.pc + 2) :
    exec_instruction s tick inp rand = .panicked (tickGate s tick) := by
  rw [exec_no_waitkey tick inp rand hw]
  have hf : (tickGate s tick).ram.get (tickGate s tick).pc 2 = .error .invalidAccess := by
    rw [tickGate_ram, tickGate_pc]
    exact get_err (by omega)
  simp only [execCore, hf]

/-- C5, counterexample to the claim as stated: at PC = 4095 the call does
not surface an error, it panics. -/
theorem C5_counterexample :
    exec_instruction { chip0 with pc := 4095 } false inputNone 0 =
      .panicked { chip0 with pc := 4095 } := by
  rw [exec_no_waitkey false inputNone 0 rfl]
  have hf : ({ chip0 with pc := 4095 } : Chip8).ram.get
      ({ chip0 with pc := 4095 } : Chip8).pc 2 = .error .invalidAccess := by
    show mem0.get 4095 2 = _
    exact get_err (by rw [mem0_len]; norm_num)
  simp only [execCore, tickGate_false, hf]

/-- C5 witness: the amended theorem at PC = 4095 on the fresh machine. -/
theorem C5_fetch_oob_panics_witness :
    ({ chip0 with pc := 4095 } : Chip8).waitkey.1 = none ∧
    ({ chip0 with pc := 4095 } : Chip8).ram.ram.length = 4096 ∧
    4096 < ({ chip0 with pc := 4095 } : Chip8).pc + 2 ∧
    exec_instruction { chip0 with pc := 4095 } false inputNone 0 =
      .panicked (tickGate { chip0 with pc := 4095 } false) :=
  ⟨rfl, mem0_len, by decide,
    C5_fetch_oob_panics { chip0 with pc := 4095 } false inputNone 0 rfl mem0_len (by decide)⟩

/-! ### Claim C10: RETURN at the stack base mutates SP before failing -/

/-- C10: a RETURN executed with SP at the stack base 0xEA0 surfaces an error
(the bare-anyhow underflow message), and the failing call leaves SP at
0xE9E: the decrement happens before the bound check, so the error path is
not atomic. -/
theorem C10_return_underflow (s : Chip8) (tick : Bool) (inp : Input) (rand : Nat)
    (hw : s.waitkey.1 = none) (hpc : s.pc + 2 ≤ s.ram.ram.length)
    (hsp : s.sp = 0xEA0)
    (hb0 : s.ram.ram.getD s.pc 0 = 0x00) (hb1 : s.ram.ram.getD (s.pc + 1) 0 = 0xEE) :
    exec_instruction s tick inp rand = .err .anyhowMsg { tickGate s tick with sp := 0xE9E } := by
  rw [exec_no_waitkey tick inp rand hw]
  rw [execCore_fetch tick inp rand hpc hb0 hb1]
  have e1 : (0x00 : Nat) >>> 4 = 0x0 := by decide
  have e2 : (0x00 : Nat) &&& 0x0F = 0x0 := by decide
  have e3 : (0xEE : Nat) >>> 4 = 0xE := by decide
  have e4 : (0xEE : Nat) &&& 0x0F = 0xE := by decide
  rw [e1, e2, e3, e4]
  exact execOp_rts_underflow _ inp rand (by rw [tickGate_sp, hsp])

/-- RAM holding the RETURN instruction 00EE at the program start 0x200. -/
def ram00EE : Chip8Mem := ⟨List.replicate 513 0 ++ 0xEE :: List.replicate 3582 0⟩

theorem ram00EE_len : ram00EE.ram.length = 4096 := by
  show (List.replicate 513 (0 : Nat) ++ 0xEE :: List.replicate 3582 0).length = 4096
  rw [List.length_append, List.length_replicate, List.length_cons, List.length_replicate]

/-- C10 witness: the freshly initialised machine (SP = 0xEA0, PC = 0x200)
with 00EE at 0x200. -/
theorem C10_return_underflow_witness :
    ({ chip0 with ram := ram00EE } : Chip8).waitkey.1 = none ∧
    ({ chip0 with ram := ram00EE } : Chip8).sp = 0xEA0 ∧
    exec_instruction { chip0 with ram := ram00EE } false inputNone 0 =
      .err .anyhowMsg { tickGate { chip0 with ram := ram00EE } false with sp := 0xE9E } := by
  refine ⟨rfl, rfl, C10_return_underflow { chip0 with ram := ram00EE } false inputNone 0
    rfl ?_ rfl ?_ ?_⟩
  · rw [show ({ chip0 with ram := ram00EE } : Chip8).ram.ram.length = 4096 from ram00EE_len]
    decide
  · show (List.replicate 513 (0 : Nat) ++ 0xEE :: List.replicate 3582 0).getD 0x200 0 = 0x00
    rw [getD_app, if_pos (by norm_num), getD_repl, if_pos (by norm_num)]
  · show (List.replicate 513 (0 : Nat) ++ 0xEE :: List.replicate 3582 0).getD 0x201 0 = 0xEE
    rw [getD_app, if_neg (by norm_num)]
    rw [show (0x201 - (List.replicate 513 (0 : Nat)).length : Nat) = 0 by
      rw [List.length_replicate]]
    rw [List.getD_cons_zero]

/-! ### Claim C6: the draw gate -/

/-- C6: with no 60Hz tick elapsing, a DRAW with the gate open performs the
blit, closes the gate and advances PC; a DRAW with the gate closed returns
Ok with the machine state entirely unchanged (display buffer and PC
included, so the same DRAW is retried); a tick re-opens the gate.  Hence
the gate boolean is consumed by at most one successful DRAW per tick. -/
theorem C6_draw_gate :
    (∀ (s : Chip8) (inp : Input) (rand x b1 : Nat) (spr : List Nat) (mf : Chip8Mem × Bool),
      s.waitkey.1 = none → s.pc + 2 ≤ s.ram.ram.length →
      s.ram.ram.getD s.pc 0 = 0xD0 + x → s.ram.ram.getD (s.pc + 1) 0 = b1 → x < 16 →
      s.draw_allowed = true →
      s.ram.get s.i (b1 &&& 0x0F) = .ok spr →
      s.ram.load_sprite spr (s.v.getD x 0) (s.v.getD (b1 >>> 4) 0) (b1 &&& 0x0F) = .ok mf →
      exec_instruction s false inp rand =
        .ok { s with draw_allowed := false, ram := mf.1, v := s.v.set 0xF (if mf.2 then 1 else 0), pc := (s.pc + 2) &&& 0xFFF }) ∧
    (∀ (s : Chip8) (inp : Input) (rand x b1 : Nat),
      s.waitkey.1 = none → s.pc + 2 ≤ s.ram.ram.length →
      s.ram.ram.getD s.pc 0 = 0xD0 + x → s.ram.ram.getD (s.pc + 1) 0 = b1 → x < 16 →
      s.draw_allowed = false → 2 ≤ s.pc → s.pc ≤ 0xFFF →
      exec_instruction s false inp rand = .ok s) ∧
    (∀ s : Chip8, (tickGate s true).draw_allowed = true) := by
  refine ⟨?_, ?_, ?_⟩
  · intro s inp rand x b1 spr mf hw hpc hb0 hb1 hx hg hspr hblit
    rw [exec_no_waitkey false inp rand hw]
    rw [execCore_fetch false inp rand hpc hb0 hb1]
    have e1 : (0xD0 + x) >>> 4 = 0xD := by rw [shr4]; omega
    have e2 : (0xD0 + x) &&& 0x0F = x := by rw [and15]; omega
    rw [e1, e2, tickGate_false]
    rw [execOp_draw_open s inp rand x (b1 >>> 4) (b1 &&& 0x0F) spr mf hg
      (by rw [and15]; omega) hspr hblit]
    simp only [advancePC]
  · intro s inp rand x b1 hw hpc hb0 hb1 hx hg hpc2 hpc3
    rw [exec_no_waitkey false inp rand hw]
    rw [execCore_fetch false inp rand hpc hb0 hb1]
    have e1 : (0xD0 + x) >>> 4 = 0xD := by rw [shr4]; omega
    have e2 : (0xD0 + x) &&& 0x0F = x := by rw [and15]; omega
    rw [e1, e2, tickGate_false]
    rw [execOp_draw_closed s inp rand x (b1 >>> 4) (b1 &&& 0x0F) hg (by rw [and15]; omega)]
    have e5 : (sub16 s.pc 2 + 2) &&& 0xFFF = s.pc := by rw [sub16_def, and4095]; omega
    simp only [advancePC]
    rw [e5]
  · intro s
    rw [tickGate]
    simp

/-- RAM holding the DRAW instruction D000 (zero-height sprite) at address 2. -/
def ramD000 : Chip8Mem := ⟨[0x00, 0x00, 0xD0, 0x00] ++ List.replicate 4092 0⟩

theorem ramD000_len : ramD000.ram.length = 4096 := by
  show ([0x00, 0x00, 0xD0, 0x00] ++ List.replicate 4092 (0 : Nat)).length = 4096
  rw [List.length_append, List.length_replicate]
  rfl

/-- Processor at the DRAW instruction with the gate open. -/
def c6a : Chip8 := { chip0 with ram := ramD000, pc := 2 }

/-- Processor at the DRAW instruction with the gate closed. -/
def c6b : Chip8 := { chip0 with ram := ramD000, pc := 2, draw_allowed := false }

theorem c6_blit : ramD000.load_sprite [] 0 0 0 = .ok (ramD000, false) := by
  rw [@load_sprite_ok ramD000 [] 0 0 0 ramD000_len]
  have hnone : ∀ k, inBlit (sub8 (0 &&& 64) 1) (sub8 (0 &&& 32) 1) 0 k = false := by
    intro k
    have hx : sub8 (0 &&& 64) 1 = 255 := by decide
    have h8 : k % (64 / 8) < 8 := Nat.mod_lt _ (by norm_num)
    have hc : ¬(255 / 8 ≤ k % (64 / 8)) := by omega
    rw [hx]
    simp [inBlit, hc]
  simp only [blitGo_none _ _ _ _ hnone]
  rw [setRam_slice_id ramD000.ram 0xF00 0x100 (by rw [ramD000_len]; norm_num)]

/-- C6 witness: a zero-height DRAW at PC = 2; with the gate open it closes
the gate, writes VF = 0 and advances PC, with the gate closed the state is
returned untouched, and a tick on the closed-gate state re-opens it. -/
theorem C6_draw_gate_witness :
    (exec_instruction c6a false inputNone 0 =
      .ok { c6a with draw_allowed := false, ram := ramD000, v := c6a.v.set 0xF 0, pc := (c6a.pc + 2) &&& 0xFFF }) ∧
    (exec_instruction c6b false inputNone 0 = .ok c6b) ∧
    (tickGate c6b true).draw_allowed = true := by
  refine ⟨?_, ?_, C6_draw_gate.2.2 c6b⟩
  · refine C6_draw_gate.1 c6a inputNone 0 0 0 [] (ramD000, false) rfl ?_ ?_ ?_ (by norm_num)
      rfl ?_ c6_blit
    · rw [show c6a.ram.ram.length = 4096 from ramD000_len]
      decide
    · show ([0x00, 0x00, 0xD0, 0x00] ++ List.replicate 4092 (0 : Nat)).getD 2 0 = 0xD0 + 0
      rw [getD_app]
      norm_num
    · show ([0x00, 0x00, 0xD0, 0x00] ++ List.replicate 4092 (0 : Nat)).getD 3 0 = 0x00
      rw [getD_app]
      norm_num
    · show ramD000.get 0 0 = .ok []
      rw [get_ok (by rw [ramD000_len]; norm_num)]
      rfl
  · refine C6_draw_gate.2.1 c6b inputNone 0 0 0 rfl ?_ ?_ ?_ (by norm_num) rfl (by decide)
      (by decide)
    · rw [show c6b.ram.ram.length = 4096 from ramD000_len]
      decide
    · show ([0x00, 0x00, 0xD0, 0x00] ++ List.replicate 4092 (0 : Nat)).getD 2 0 = 0xD0 + 0
      rw [getD_app]
      norm_num
    · show ([0x00, 0x00, 0xD0, 0x00] ++ List.replicate 4092 (0 : Nat)).getD 3 0 = 0x00
      rw [getD_app]
      norm_num

/-! ### Claim C7: the 8xy_ ALU group -/

theorem getD_set_self (l : List Nat) (a b : Nat) (h : a < l.length) :
    (l.set a b).getD a 0 = b := by
  rw [getD_set, if_pos ⟨rfl, h⟩]

theorem getD_set_other (l : List Nat) (a b k : Nat) (h : ¬ a = k) :
    (l.set a b).getD k 0 = l.getD k 0 := by
  rw [getD_set, if_neg (fun hc => h hc.1)]

/-- C7 (amended): over a 16-entry register file, OR/AND/XOR always reset VF
to 0; ADD writes the wrapping 8-bit sum and VF = carry; SUB writes the
wrapping difference and VF = 1 exactly when there is no borrow; SHR/SHL
first copy Vy into Vx, then shift, with VF receiving the shifted-out bit;
the claimed particulars for ADD 0xFF+0x01 and SUB 0x01-0x02 hold.  Because
the source writes the result first and the flag second, the result value
only survives in Vx when x ≠ 0xF; for x = 0xF the flag write wins (hence
the guards). -/
theorem C7_alu_ops (v : List Nat) (x y : Nat)
    (hx : x < 16) (hy : y < 16) (hv : v.length = 16) :
    (∃ w, execAlu v x y 0x1 = some w ∧ w.getD 0xF 0 = 0 ∧
      (x ≠ 0xF → w.getD x 0 = v.getD x 0 ||| v.getD y 0)) ∧
    (∃ w, execAlu v x y 0x2 = some w ∧ w.getD 0xF 0 = 0 ∧
      (x ≠ 0xF → w.getD x 0 = v.getD x 0 &&& v.getD y 0)) ∧
    (∃ w, execAlu v x y 0x3 = some w ∧ w.getD 0xF 0 = 0 ∧
      (x ≠ 0xF → w.getD x 0 = v.getD x 0 ^^^ v.getD y 0)) ∧
    (∃ w, execAlu v x y 0x4 = some w ∧
      w.getD 0xF 0 = (if 256 ≤ v.getD x 0 + v.getD y 0 then 1 else 0) ∧
      (x ≠ 0xF → w.getD x 0 = (v.getD x 0 + v.getD y 0) &&& 255)) ∧
    (∃ w, execAlu v x y 0x5 = some w ∧
      w.getD 0xF 0 = (if v.getD x 0 < v.getD y 0 then 0 else 1) ∧
      (x ≠ 0xF → w.getD x 0 = sub8 (v.getD x 0) (v.getD y 0))) ∧
    (∃ w, execAlu v x y 0x6 = some w ∧
      w.getD 0xF 0 = v.getD y 0 &&& 0x01 ∧
      (x ≠ 0xF → w.getD x 0 = v.getD y 0 >>> 1)) ∧
    (∃ w, execAlu v x y 0xE = some w ∧
      w.getD 0xF 0 = (v.getD y 0 &&& 0x80) >>> 7 ∧
      (x ≠ 0xF → w.getD x 0 = (v.getD y 0 <<< 1) &&& 255)) ∧
    ((execAlu (0xFF :: 0x01 :: List.replicate 14 0) 0 1 0x4).map
      (fun w => (w.getD 0 0, w.getD 0xF 0)) = some (0x00, 1)) ∧
    ((execAlu (0x01 :: 0x02 :: List.replicate 14 0) 0 1 0x5).map
      (fun w => (w.getD 0 0, w.getD 0xF 0)) = some (0xFF, 0)) := by
  refine ⟨?_, ?_, ?_, ?_, ?_, ?_, ?_, by decide, by decide⟩
  · refine ⟨(v.set x (v.getD x 0 ||| v.getD y 0)).set 0xF 0, rfl, ?_, ?_⟩
    · exact getD_set_self _ 0xF _ (by rw [List.length_set]; omega)
    · intro hxF
      rw [getD_set_other _ 0xF _ x (by omega), getD_set_self _ x _ (by omega)]
  · refine ⟨(v.set x (v.getD x 0 &&& v.getD y 0)).set 0xF 0, rfl, ?_, ?_⟩
    · exact getD_set_self _ 0xF _ (by rw [List.length_set]; omega)
    · intro hxF
      rw [getD_set_other _ 0xF _ x (by omega), getD_set_self _ x _ (by omega)]
  · refine ⟨(v.set x (v.getD x 0 ^^^ v.getD y 0)).set 0xF 0, rfl, ?_, ?_⟩
    · exact getD_set_self _ 0xF _ (by rw [List.length_set]; omega)
    · intro hxF
      rw [getD_set_other _ 0xF _ x (by omega), getD_set_self _ x _ (by omega)]
  · refine ⟨(v.set x ((v.getD x 0 + v.getD y 0) &&& 255)).set 0xF
      (if 256 ≤ v.getD x 0 + v.getD y 0 then 1 else 0), rfl, ?_, ?_⟩
    · exact getD_set_self _ 0xF _ (by rw [List.length_set]; omega)
    · intro hxF
      rw [getD_set_other _ 0xF _ x (by omega), getD_set_self _ x _ (by omega)]
  · refine ⟨(v.set x (sub8 (v.getD x 0) (v.getD y 0))).set 0xF
      (1 - (if v.getD x 0 < v.getD y 0 then 1 else 0)), rfl, ?_, ?_⟩
    · rw [getD_set_self _ 0xF _ (by rw [List.length_set]; omega)]
      split_ifs <;> norm_num
    · intro hxF
      rw [getD_set_other _ 0xF _ x (by omega), getD_set_self _ x _ (by omega)]
  · have h1 : (v.set x (v.getD y 0)).getD x 0 = v.getD y 0 := getD_set_self _ x _ (by omega)
    refine ⟨((v.set x (v.getD y 0)).set x ((v.set x (v.getD y 0)).getD x 0 >>> 1)).set 0xF
      ((v.set x (v.getD y 0)).getD x 0 &&& 0x01), rfl, ?_, ?_⟩
    · rw [getD_set_self _ 0xF _ (by rw [List.length_set, List.length_set]; omega), h1]
    · intro hxF
      rw [getD_set_other _ 0xF _ x (by omega),
        getD_set_self _ x _ (by rw [List.length_set]; omega), h1]
  · have h1 : (v.set x (v.getD y 0)).getD x 0 = v.getD y 0 := getD_set_self _ x _ (by omega)
    refine ⟨((v.set x (v.getD y 0)).set x (((v.set x (v.getD y 0)).getD x 0 <<< 1) &&& 255)).set
      0xF (((v.set x (v.getD y 0)).getD x 0 &&& 0x80) >>> 7), rfl, ?_, ?_⟩
    · rw [getD_set_self _ 0xF _ (by rw [List.length_set, List.length_set]; omega), h1]
    · intro hxF
      rw [getD_set_other _ 0xF _ x (by omega),
        getD_set_self _ x _ (by rw [List.length_set]; omega), h1]

/-- C7, counterexample to the unqualified claim: for x = y = 0xF, ADD leaves
the carry flag in VF, not the wrapping sum 0xFE, because the flag write is
sequenced after the result write to the same register. -/
theorem C7_counterexample :
    execAlu (List.replicate 15 0 ++ [0xFF]) 0xF 0xF 0x4 = some (List.replicate 15 0 ++ [1]) ∧
    (0xFF + 0xFF) &&& 255 = 0xFE ∧ (0xFE : Nat) ≠ 1 := by
  refine ⟨by decide, by decide, by decide⟩

/-- C7 witness: the amended theorem on the all-zero register file with
x = 0, y = 1 (all conjunct values evaluated). -/
theorem C7_alu_ops_witness :
    (0 : Nat) < 16 ∧ (1 : Nat) < 16 ∧ (List.replicate 16 (0 : Nat)).length = 16 ∧
    ((∃ w, execAlu (List.replicate 16 0) 0 1 0x1 = some w ∧ w.getD 0xF 0 = 0 ∧
      ((0 : Nat) ≠ 0xF → w.getD 0 0 = 0)) ∧
    (∃ w, execAlu (List.replicate 16 0) 0 1 0x2 = some w ∧ w.getD 0xF 0 = 0 ∧
      ((0 : Nat) ≠ 0xF → w.getD 0 0 = 0)) ∧
    (∃ w, execAlu (List.replicate 16 0) 0 1 0x3 = some w ∧ w.getD 0xF 0 = 0 ∧
      ((0 : Nat) ≠ 0xF → w.getD 0 0 = 0)) ∧
    (∃ w, execAlu (List.replicate 16 0) 0 1 0x4 = some w ∧ w.getD 0xF 0 = 0 ∧
      ((0 : Nat) ≠ 0xF → w.getD 0 0 = 0)) ∧
    (∃ w, execAlu (List.replicate 16 0) 0 1 0x5 = some w ∧ w.getD 0xF 0 = 1 ∧
      ((0 : Nat) ≠ 0xF → w.getD 0 0 = 0)) ∧
    (∃ w, execAlu (List.replicate 16 0) 0 1 0x6 = some w ∧ w.getD 0xF 0 = 0 ∧
      ((0 : Nat) ≠ 0xF → w.getD 0 0 = 0)) ∧
    (∃ w, execAlu (List.replicate 16 0) 0 1 0xE = some w ∧ w.getD 0xF 0 = 0 ∧
      ((0 : Nat) ≠ 0xF → w.getD 0 0 = 0)) ∧
    ((execAlu (0xFF :: 0x01 :: List.replicate 14 0) 0 1 0x4).map
      (fun w => (w.getD 0 0, w.getD 0xF 0)) = some (0x00, 1)) ∧
    ((execAlu (0x01 :: 0x02 :: List.replicate 14 0) 0 1 0x5).map
      (fun w => (w.getD 0 0, w.getD 0xF 0)) = some (0xFF, 0))) := by
  refine ⟨by decide, by decide, by decide, ?_⟩
  exact C7_alu_ops (List.replicate 16 0) 0 1 (by decide) (by decide) (by decide)

/-! ### Claim C8: CALL / RETURN -/

theorem recompose16 (p : Nat) (h : p < 65536) :
    ((p >>> 8) &&& 0xFF) * 256 + (p &&& 0xFF) = p := by
  rw [shr8, and255, and255]
  omega

/-- C8 (amended): a CALL with SP below the display-buffer base 0xF00 pushes
the current PC, bumps SP by 2 and jumps; executing the RETURN at the call
target then pops that PC and lands on the instruction immediately after the
CALL, with SP restored.  A CALL with SP at or above 0xF00 fails with an
InvalidInstructionError ("exceeded stack frame limit"): the code defines no
separate StackOverflow error kind. -/
theorem C8_call_return :
    (∀ (s : Chip8) (inp : Input) (rand b b1 nnn : Nat) (mr : Chip8Mem),
      s.waitkey.1 = none → s.ram.ram.length = 4096 →
      s.pc + 2 ≤ 4096 → s.pc ≤ 0xFFF →
      s.ram.ram.getD s.pc 0 = 0x20 + b → s.ram.ram.getD (s.pc + 1) 0 = b1 → b < 16 →
      0xEA0 ≤ s.sp → s.sp + 2 ≤ 0xF00 →
      s.ram.set s.sp [(s.pc >>> 8) &&& 0xFF, s.pc &&& 0xFF] = .ok mr →
      nnn = b * 256 + ((b1 >>> 4) <<< 4 + (b1 &&& 0x0F)) →
      mr.ram.getD nnn 0 = 0x00 → mr.ram.getD (nnn + 1) 0 = 0xEE → nnn + 2 ≤ 4096 →
      ∀ s1 : Chip8, s1 = { s with ram := mr, sp := s.sp + 2, pc := nnn } →
        exec_instruction s false inp rand = .ok s1 ∧
        exec_instruction s1 false inp rand =
          .ok { s with ram := mr, pc := (s.pc + 2) &&& 0xFFF }) ∧
    (∀ (s : Chip8) (inp : Input) (rand b b1 : Nat),
      s.waitkey.1 = none → s.pc + 2 ≤ s.ram.ram.length →
      s.ram.ram.getD s.pc 0 = 0x20 + b → s.ram.ram.getD (s.pc + 1) 0 = b1 → b < 16 →
      0xF00 ≤ s.sp →
      exec_instruction s false inp rand = .err .invalidInstruction s) := by
  constructor
  · intro s inp rand b b1 nnn mr hw hlen hpca hpcf hb0 hb1 hb hspl hsph hpush hnnn hr0 hr1
      hnnn2 s1 hs1
    have hmr : mr.ram = setRam s.sp [(s.pc >>> 8) &&& 0xFF, s.pc &&& 0xFF] s.ram.ram 0 :=
      set_inv hpush
    have hlen2 : mr.ram.length = 4096 := by rw [hmr, setRam_length, hlen]
    have hg0 : mr.ram.getD s.sp 0 = (s.pc >>> 8) &&& 0xFF := by
      rw [hmr, setRam_getD]
      rw [if_pos ⟨by omega, by simp only [List.length_cons, List.length_nil]; omega,
        by rw [hlen]; omega⟩]
      have e0 : 0 + s.sp - s.sp = 0 := by omega
      rw [e0]
      rfl
    have hg1 : mr.ram.getD (s.sp + 1) 0 = s.pc &&& 0xFF := by
      rw [hmr, setRam_getD]
      rw [if_pos ⟨by omega, by simp only [List.length_cons, List.length_nil]; omega,
        by rw [hlen]; omega⟩]
      have e0 : 0 + (s.sp + 1) - s.sp = 1 := by omega
      rw [e0]
      rfl
    constructor
    · rw [exec_no_waitkey false inp rand hw]
      rw [execCore_fetch false inp rand (by rw [hlen]; omega) hb0 hb1]
      have e1 : (0x20 + b) >>> 4 = 0x2 := by rw [shr4]; omega
      have e2 : (0x20 + b) &&& 0x0F = b := by rw [and15]; omega
      rw [e1, e2, tickGate_false]
      rw [execOp_call s inp rand b (b1 >>> 4) (b1 &&& 0x0F) mr (by omega) hpush]
      rw [hs1, hnnn]
    · have hw1 : s1.waitkey.1 = none := by rw [hs1]; exact hw
      have hram1 : s1.ram = mr := by rw [hs1]
      have hpc1 : s1.pc = nnn := by rw [hs1]
      have hsp1 : s1.sp = s.sp + 2 := by rw [hs1]
      rw [exec_no_waitkey false inp rand hw1]
      rw [execCore_fetch false inp rand
        (by rw [hram1, hpc1, hlen2]; omega)
        (show s1.ram.ram.getD s1.pc 0 = 0x00 by rw [hram1, hpc1]; exact hr0)
        (show s1.ram.ram.getD (s1.pc + 1) 0 = 0xEE by rw [hram1, hpc1]; exact hr1)]
      have e1 : (0x00 : Nat) >>> 4 = 0x0 := by decide
      have e2 : (0x00 : Nat) &&& 0x0F = 0x0 := by decide
      have e3 : (0xEE : Nat) >>> 4 = 0xE := by decide
      have e4 : (0xEE : Nat) &&& 0x0F = 0xE := by decide
      rw [e1, e2, e3, e4, tickGate_false]
      have hpop1 : s1.ram.get (s1.sp - 2) 2 =
          .ok [(s.pc >>> 8) &&& 0xFF, s.pc &&& 0xFF] := by
        rw [hram1, hsp1]
        have e0 : s.sp + 2 - 2 = s.sp := by omega
        rw [e0, get_two (by rw [hlen2]; omega), hg0, hg1]
      rw [execOp_rts s1 inp rand ((s.pc >>> 8) &&& 0xFF) (s.pc &&& 0xFF)
        (by rw [hsp1]; omega) (by rw [hsp1]; omega) hpop1]
      rw [recompose16 s.pc (by omega), hs1]
      simp
  · intro s inp rand b b1 hw hpc hb0 hb1 hb hsp
    rw [exec_no_waitkey false inp rand hw]
    rw [execCore_fetch false inp rand hpc hb0 hb1]
    have e1 : (0x20 + b) >>> 4 = 0x2 := by rw [shr4]; omega
    have e2 : (0x20 + b) &&& 0x0F = b := by rw [and15]; omega
    rw [e1, e2, tickGate_false]
    exact execOp_call_overflow s inp rand b (b1 >>> 4) (b1 &&& 0x0F) hsp

/-- RAM with CALL 0x222 (bytes 22 22) at 0x200 and RETURN (00 EE) at 0x222. -/
def ramC8 : Chip8Mem :=
  ⟨List.replicate 512 0 ++
    0x22 :: 0x22 :: (List.replicate 32 0 ++ 0x00 :: 0xEE :: List.replicate 3548 0)⟩

theorem ramC8_len : ramC8.ram.length = 4096 := by
  show (List.replicate 512 (0 : Nat) ++
    0x22 :: 0x22 :: (List.replicate 32 0 ++ 0x00 :: 0xEE :: List.replicate 3548 0)).length = 4096
  simp only [List.length_append, List.length_cons, List.length_replicate]

/-- The RAM of ramC8 after the CALL pushed PC = 0x200 at the stack base. -/
def c8mr : Chip8Mem := ⟨setRam 0xEA0 [2, 0] ramC8.ram 0⟩

/-- C8, counterexample to the claimed error kind: the overflowing CALL
(SP already at the display-buffer base 0xF00) surfaces the
InvalidInstructionError variant, the same kind used for undecodable
opcodes; no StackOverflow kind exists in the code. -/
theorem C8_counterexample :
    exec_instruction { chip0 with ram := ramC8, sp := 0xF00 } false inputNone 0 =
      .err .invalidInstruction { chip0 with ram := ramC8, sp := 0xF00 } := by
  rw [exec_no_waitkey false inputNone 0 rfl]
  rw [execCore_fetch false inputNone 0
    (by rw [show ({ chip0 with ram := ramC8, sp := 0xF00 } : Chip8).ram.ram.length = 4096 from
      ramC8_len]; decide)
    (by decide : ({ chip0 with ram := ramC8, sp := 0xF00 } : Chip8).ram.ram.getD
      ({ chip0 with ram := ramC8, sp := 0xF00 } : Chip8).pc 0 = 0x22)
    (by decide : ({ chip0 with ram := ramC8, sp := 0xF00 } : Chip8).ram.ram.getD
      (({ chip0 with ram := ramC8, sp := 0xF00 } : Chip8).pc + 1) 0 = 0x22)]
  rw [show (0x22 : Nat) >>> 4 = 0x2 from by decide, show (0x22 : Nat) &&& 0x0F = 0x2 from
    by decide]
  rw [tickGate_false]
  exact execOp_call_overflow _ inputNone 0 0x2 0x2 0x2 (by decide)

/-- C8 witness: CALL 0x222 from PC = 0x200 (SP at the stack base), the
RETURN at 0x222 landing back on 0x202 with SP restored, and the overflowing
CALL with SP = 0xF00. -/
theorem C8_call_return_witness :
    (exec_instruction { chip0 with ram := ramC8 } false inputNone 0 =
      .ok { chip0 with ram := c8mr, sp := 0xEA2, pc := 0x222 }) ∧
    (exec_instruction { chip0 with ram := c8mr, sp := 0xEA2, pc := 0x222 } false inputNone 0 =
      .ok { chip0 with ram := c8mr, pc := 0x202 }) ∧
    (exec_instruction { chip0 with ram := ramC8, sp := 0xF00 } false inputNone 0 =
      .err .invalidInstruction { chip0 with ram := ramC8, sp := 0xF00 }) := by
  have h12 := C8_call_return.1 { chip0 with ram := ramC8 } inputNone 0 0x2 0x22 0x222 c8mr
    rfl ramC8_len (by decide) (by decide) (by decide) (by decide) (by decide) (by decide)
    (by decide) (set_ok (by decide) (by decide)) (by decide) (by decide) (by decide)
    (by decide) { chip0 with ram := c8mr, sp := 0xEA2, pc := 0x222 } rfl
  refine ⟨h12.1, h12.2, ?_⟩
  refine C8_call_return.2 { chip0 with ram := ramC8, sp := 0xF00 } inputNone 0 0x2 0x22
    rfl ?_ (by decide) (by decide) (by decide) (by decide)
  rw [show ({ chip0 with ram := ramC8, sp := 0xF00 } : Chip8).ram.ram.length = 4096 from
    ramC8_len]
  decide
